import Mathlib

/-! Dispatcher of the service gateway.

A shallow embedding of `dispatcher/no_integration_dispatcher.go`:
`BuildNoIntegrationDispatcher`, `buildNoIntegrationPathDispatcher` and
`noIntegrationPathDispatcher.RegisterApplication`.

Conventions of the embedding.

* Go strings are `String`; Go `map[string]T` values are association lists
  with distinct keys (`mapSet` is the assignment `m[k] = v`). Go leaves the
  iteration order of a map unspecified; the embedding iterates in list order
  and the theorems below do not depend on that order unless they say so.
* `httprouter.Handle` values are elements of an arbitrary type `H`. The
  handlers produced outside this file (the closures' `Handle` methods,
  `HostRewriter.Decorate`, `buildOptionsHandler`) are fields of
  `Collaborators H`; behaviours are functions of type `Behaviour H`.
* The router `n.mux` is the list of the registrations made on it, in call
  order. `httprouter` is a library outside the repository: whether it takes
  a registration or panics on it (a path without a leading `/`, a path
  already registered, a conflicting wildcard) is the field `accepts` of
  `Collaborators H`, and a registration it takes is added to the list.
* Go errors are their messages; `errors.WithStack` keeps the message.
-/

namespace Dispatcher

/-! ## Configuration records (package `config`, the fields this file reads) -/

/-- Backend descriptor `config.Application.Backend`. -/
structure Backend where
  Url : String
  Service : String
  Tag : String
deriving DecidableEq, Repr

/-- Routing descriptor `config.Application.Routing`; `Type_` is the Go field
`Type`, `Patterns` the Go map from route template to target template. -/
structure Routing where
  Type_ : String
  Path : String
  Patterns : List (String × String)
deriving DecidableEq, Repr

/-- Application record `config.Application`. -/
structure Application where
  Backend : Backend
  Routing : Routing
deriving DecidableEq, Repr

/-- Record `config.Configuration.Proxy.OptionsConfiguration`. -/
structure OptionsConfiguration where
  Enabled : Bool
deriving DecidableEq, Repr

/-- Record `config.Configuration.Proxy`. -/
structure ProxyConfiguration where
  OptionsConfiguration : OptionsConfiguration
deriving DecidableEq, Repr

/-- Record `config.Configuration`: the applications by name and the proxy
options. -/
structure Configuration where
  Applications : List (String × Application)
  Proxy : ProxyConfiguration
deriving DecidableEq, Repr

/-- Record `config.Startup`, the fields read here. -/
structure Startup where
  DispatchingMode : String
  UiDir : String
deriving DecidableEq, Repr

/-- Reference to a `proxy.ProxyHandler`; the number stands for the pointer. -/
structure ProxyHandler where
  ref : Nat
deriving DecidableEq, Repr

/-! ## Go maps as association lists -/

/-- Assignment `m[k] = v` on a Go map: replaces the value of an existing key,
adds the key otherwise. -/
def mapSet {α : Type} (m : List (String × α)) (k : String) (v : α) : List (String × α) :=
  match m with
  | [] => [(k, v)]
  | (k', v') :: rest => if k' = k then (k, v) :: rest else (k', v') :: mapSet rest k v

/-- Lookup `m[k]` on a Go map. -/
def mapGet {α : Type} (m : List (String × α)) (k : String) : Option α :=
  match m with
  | [] => none
  | (k', v') :: rest => if k' = k then some v' else mapGet rest k

/-! ## Library functions on strings used by `RegisterApplication` -/

/-- Go `strings.TrimRight(s, cutset)`: removes every trailing character of
`s` that occurs in `cutset`. -/
def TrimRight (s : String) (cutset : String) : String :=
  String.mk (s.data.reverse.dropWhile (fun c => decide (c ∈ cutset.data))).reverse

/-- The character class `[a-zA-Z0-9]`. -/
def isParamChar (c : Char) : Bool :=
  c.isLower || c.isUpper || c.isDigit

/-- The longest prefix matched by `[a-zA-Z0-9]+` (empty when there is no
match): the operator is greedy. -/
def paramName (cs : List Char) : List Char :=
  cs.takeWhile isParamChar

/-- Go `re.FindAllStringSubmatch(s, -1)` for `re = ":([a-zA-Z0-9]+)"`: the
successive non-overlapping leftmost matches, each as the pair
`[whole match, group 1]`. The second argument counts the characters of the
last match still to be skipped. -/
def findAllSubmatchFrom : List Char → Nat → List (List String)
  | [], _ => []
  | _ :: rest, skip + 1 => findAllSubmatchFrom rest skip
  | c :: rest, 0 =>
    if c = ':' ∧ paramName rest ≠ [] then
      [String.mk (':' :: paramName rest), String.mk (paramName rest)]
        :: findAllSubmatchFrom rest (paramName rest).length
    else findAllSubmatchFrom rest 0

/-- Go `re.FindAllStringSubmatch(s, -1)` for `re = ":([a-zA-Z0-9]+)"`. -/
def FindAllStringSubmatch (s : String) : List (List String) :=
  findAllSubmatchFrom s.data 0

/-- Go `re.ReplaceAllString(s, "(?P<$1>[^/]+?)")` for
`re = ":([a-zA-Z0-9]+)"` on characters: each match is replaced by the
template, in which `$1` is the text of group 1. -/
def replaceAllFrom : List Char → Nat → List Char
  | [], _ => []
  | _ :: rest, skip + 1 => replaceAllFrom rest skip
  | c :: rest, 0 =>
    if c = ':' ∧ paramName rest ≠ [] then
      "(?P<".data ++ paramName rest ++ ">[^/]+?)".data
        ++ replaceAllFrom rest (paramName rest).length
    else c :: replaceAllFrom rest 0

/-- Go `re.ReplaceAllString(s, "(?P<$1>[^/]+?)")` for
`re = ":([a-zA-Z0-9]+)"`. -/
def ReplaceAllString (s : String) : String :=
  String.mk (replaceAllFrom s.data 0)

/-! ## Closures, rewriter, behaviours, router -/

/-- Go `PathClosure`, the fields set by `RegisterApplication`. -/
structure PathClosure where
  backendUrl : String
  appName : String
  appCfg : Application
  proxy : ProxyHandler
deriving DecidableEq, Repr

/-- Go `PatternClosure`, the fields set by `RegisterApplication`;
`parameters` is the `[][]string` returned by `FindAllStringSubmatch`. -/
structure PatternClosure where
  targetUrl : String
  parameters : List (List String)
  appName : String
  appCfg : Application
  proxy : ProxyHandler
deriving DecidableEq, Repr

/-- The arguments `proxy.NewHostRewriter(backendUrl, mapping, n.log)` was
called with; the rewriter is determined by them. -/
structure HostRewriter where
  backendUrl : String
  mapping : List (String × String)
deriving DecidableEq, Repr

/-- HTTP methods the dispatcher registers. -/
inductive Method where
  | GET | HEAD | POST | PUT | PATCH | DELETE | OPTIONS
deriving DecidableEq, Repr

/-- One registration on the router: `n.mux.METHOD(route, handler)`. -/
structure Binding (H : Type) where
  method : Method
  route : String
  handler : H
deriving DecidableEq, Repr

/-- What is built outside this file: the `Handle` methods of the two
closures, `HostRewriter.Decorate`, the dispatcher's `buildOptionsHandler`,
and the router: `accepts mux method route` tells whether `httprouter`, holding
the registrations `mux`, takes the registration of `route` for `method`
(`true`) or panics on it (`false`). -/
structure Collaborators (H : Type) where
  pathHandle : PathClosure → H
  patternHandle : PatternClosure → H
  Decorate : HostRewriter → H → H
  buildOptionsHandler : H → H
  accepts : List (Binding H) → Method → String → Bool

/-- A behaviour is its `Apply` method:
`Apply(safe, unsafe, dispatcher, appName, appCfg, config)` returns the two
new handlers or an error. The dispatcher argument is not passed: the result
is taken to depend on the two handlers, the application and the
configuration. -/
abbrev Behaviour (H : Type) : Type :=
  H → H → String → Application → Configuration → Except String (H × H)

/-- Go `noIntegrationPathDispatcher` with the embedded abstract dispatcher's
fields used here. -/
structure noIntegrationPathDispatcher (H : Type) where
  cfg : Configuration
  prx : ProxyHandler
  behaviours : List (Behaviour H)
  mux : List (Binding H)

/-- Go `buildNoIntegrationPathDispatcher`: no behaviour, an empty router. -/
def buildNoIntegrationPathDispatcher {H : Type} (cfg : Configuration) (prx : ProxyHandler) :
    noIntegrationPathDispatcher H :=
  { cfg := cfg, prx := prx, behaviours := [], mux := [] }

/-- Modelled from the spec: `AddBehaviour` of the embedded abstract
dispatcher, which is not in this file; the spec says it "appends to the
ordered behavior list". -/
def AddBehaviour {H : Type} (n : noIntegrationPathDispatcher H) (b : Behaviour H) :
    noIntegrationPathDispatcher H :=
  { n with behaviours := n.behaviours ++ [b] }

/-! ## `RegisterApplication` -/

/-- Lines 134-141: the backend base URL of an application. -/
def resolveBackendUrl (b : Backend) : String :=
  if b.Url = "" ∧ b.Service ≠ "" then
    if b.Tag ≠ "" then "http://" ++ b.Tag ++ "." ++ b.Service ++ ".service.consul"
    else "http://" ++ b.Service ++ ".service.consul"
  else b.Url

/-- What lines 132-182 leave behind: the `routes` map and the `rewriter`
variable (`none` is the nil interface). -/
structure Compiled (H : Type) where
  routes : List (String × H)
  rewriter : Option HostRewriter

/-- Line 166: the key of the rewrite mapping for a target template,
`"^" + re.ReplaceAllString(target, "(?P<$1>[^/]+?)") + "$"`. -/
def targetPatternOf (target : String) : String :=
  "^" ++ ReplaceAllString target ++ "$"

/-- Lines 163-179: one iteration of the loop over `Routing.Patterns`, on the
pair (`mapping`, `routes`). -/
def patternStep {H : Type} (C : Collaborators H) (prx : ProxyHandler) (name : String)
    (appCfg : Application) (backendUrl : String)
    (acc : List (String × String) × List (String × H)) (entry : String × String) :
    List (String × String) × List (String × H) :=
  let pattern := entry.1
  let target := entry.2
  let targetPattern := targetPatternOf target
  let mapping := mapSet acc.1 targetPattern pattern
  let closure : PatternClosure :=
    { targetUrl := backendUrl ++ target
      parameters := FindAllStringSubmatch pattern
      appName := name
      appCfg := appCfg
      proxy := prx }
  (mapping, mapSet acc.2 pattern (C.patternHandle closure))

/-- Lines 132-182 of `RegisterApplication`. -/
def compileRoutes {H : Type} (C : Collaborators H) (prx : ProxyHandler) (name : String)
    (appCfg : Application) : Compiled H :=
  let backendUrl := resolveBackendUrl appCfg.Backend
  if appCfg.Routing.Type_ = "path" then
    let path := TrimRight appCfg.Routing.Path "/"
    let mapping := [("/(?P<path>.*)", path ++ "/:path")]
    let closure : PathClosure :=
      { backendUrl := backendUrl, appName := name, appCfg := appCfg, proxy := prx }
    { routes := mapSet (mapSet [] path (C.pathHandle closure)) (path ++ "/*path")
        (C.pathHandle closure)
      rewriter := some { backendUrl := backendUrl, mapping := mapping } }
  else if appCfg.Routing.Type_ = "pattern" then
    let acc := appCfg.Routing.Patterns.foldl (patternStep C prx name appCfg backendUrl) ([], [])
    { routes := acc.2
      rewriter := some { backendUrl := backendUrl, mapping := acc.1 } }
  else
    { routes := [], rewriter := none }

/-- Lines 190-196: the behaviours are applied one after the other, in the
order of `n.behaviours`; the first error stops the loop. -/
def applyBehaviours {H : Type} (name : String) (appCfg : Application) (config : Configuration) :
    List (Behaviour H) → H → H → Except String (H × H)
  | [], safeHandler, unsafeHandler => .ok (safeHandler, unsafeHandler)
  | behaviour :: rest, safeHandler, unsafeHandler =>
    match behaviour safeHandler unsafeHandler name appCfg config with
    | .error err => .error err
    | .ok (s, u) => applyBehaviours name appCfg config rest s u

/-- Lines 198-211: the seven registrations of one route. -/
def bindRoute {H : Type} (C : Collaborators H) (optionsEnabled : Bool) (route : String)
    (safeHandler unsafeHandler : H) : List (Binding H) :=
  [ ⟨.GET, route, safeHandler⟩,
    ⟨.HEAD, route, safeHandler⟩,
    ⟨.POST, route, unsafeHandler⟩,
    ⟨.PUT, route, unsafeHandler⟩,
    ⟨.PATCH, route, unsafeHandler⟩,
    ⟨.DELETE, route, unsafeHandler⟩,
    ⟨.OPTIONS, route,
      if optionsEnabled then C.buildOptionsHandler safeHandler else safeHandler⟩ ]

/-- How a call ends: it returns nil, returns an error, or panics. -/
inductive Result where
  | nil
  | error (msg : String)
  | panic (msg : String)
deriving DecidableEq, Repr

/-- The calls `n.mux.METHOD(route, handler)` of lines 198-211, one after the
other: the router after the last call made, and whether all were taken
(`false` when one panicked, which ends the calls). -/
def registerAll {H : Type} (C : Collaborators H) :
    List (Binding H) → List (Binding H) → List (Binding H) × Bool
  | [], mux => (mux, true)
  | b :: rest, mux =>
    if C.accepts mux b.method b.route then registerAll C rest (mux ++ [b])
    else (mux, false)

/-- Lines 184-212: the loop over `routes`, on the router. A nil `rewriter`
panics at `rewriter.Decorate`, and a registration the router does not take
panics in `httprouter`. -/
def registerRoutes {H : Type} (C : Collaborators H) (n : noIntegrationPathDispatcher H)
    (name : String) (appCfg : Application) (config : Configuration)
    (rewriter : Option HostRewriter) :
    List (String × H) → List (Binding H) → List (Binding H) × Result
  | [], mux => (mux, .nil)
  | (route, handler) :: rest, mux =>
    match rewriter with
    | none => (mux, .panic "nil pointer dereference")
    | some rw =>
      match applyBehaviours name appCfg config n.behaviours
          (C.Decorate rw handler) (C.Decorate rw handler) with
      | .error err => (mux, .error err)
      | .ok (safeHandler, unsafeHandler) =>
        match registerAll C (bindRoute C n.cfg.Proxy.OptionsConfiguration.Enabled route
            safeHandler unsafeHandler) mux with
        | (mux', false) => (mux', .panic "httprouter: registration refused")
        | (mux', true) => registerRoutes C n name appCfg config rewriter rest mux'

/-- Go `(*noIntegrationPathDispatcher).RegisterApplication`: the dispatcher
after the call and how the call ended. -/
def RegisterApplication {H : Type} (C : Collaborators H) (n : noIntegrationPathDispatcher H)
    (name : String) (appCfg : Application) (config : Configuration) :
    noIntegrationPathDispatcher H × Result :=
  let compiled := compileRoutes C n.prx name appCfg
  let r := registerRoutes C n name appCfg config compiled.rewriter compiled.routes n.mux
  ({ n with mux := r.1 }, r.2)

/-! ## `BuildNoIntegrationDispatcher` -/

/-- What the constructors called by `BuildNoIntegrationDispatcher` return,
for a type `S` of `http.Handler` values: an `Option String` is the error of
the call, if any. The three behaviours are the values of
`NewCachingBehaviour`, `NewAuthenticationBehaviour` and
`NewRatelimitBehaviour`; `Initialize` is the dispatcher's method of that
name and `asHandler` the dispatcher seen as an `http.Handler`. -/
structure Externals (H S : Type) where
  NewAuthenticationHandler : Option String
  NewAuthDecorator : Option String
  NewRateLimiter : Option String
  NewCachingBehaviour : Behaviour H
  NewAuthenticationBehaviour : Behaviour H
  NewRatelimitBehaviour : Behaviour H
  Initialize : noIntegrationPathDispatcher H → Option String
  GetLogger : Option String
  NewAdminServer : Except String S
  asHandler : noIntegrationPathDispatcher H → S

/-- How `BuildNoIntegrationDispatcher` ends: it returns its three values,
exits the process through `logger.Fatalf`, or panics. -/
inductive BuildResult (S : Type) where
  | returned (server : Option S) (adminServer : Option S) (err : Option String)
  | fatal (msg : String)
  | panic (msg : String)
deriving DecidableEq, Repr

/-- Lines 71-76: the loop over `localCfg.Applications`. -/
def registerApplications {H : Type} (C : Collaborators H) (config : Configuration) :
    List (String × Application) → noIntegrationPathDispatcher H →
      noIntegrationPathDispatcher H × Result
  | [], disp => (disp, .nil)
  | (name, appCfg) :: rest, disp =>
    match RegisterApplication C disp name appCfg config with
    | (disp', .nil) => registerApplications C config rest disp'
    | (disp', r) => (disp', r)

/-- Lines 94-103: the loop over `httpLoggers`, each given by its `Wrap`; the
registration of a logger as a listener of the authentication decorator
leaves the returned values as they are and is not embedded. -/
def wrapLoggers {S : Type} : List (S → Except String S) → S → Except String S
  | [], server => .ok server
  | wrap :: rest, server =>
    match wrap server with
    | .error err => .error err
    | .ok server' => wrapLoggers rest server'

/-- Go `BuildNoIntegrationDispatcher`: the value of the variable `disp` when
the function ends (`none` is the nil interface) and how it ends. The pair
`built` is (`disp`, `err`) after the switch of lines 37-42. -/
def BuildNoIntegrationDispatcher {H S : Type} (C : Collaborators H) (X : Externals H S)
    (startup : Startup) (cfg : Configuration) (handler : ProxyHandler)
    (httpLoggers : List (S → Except String S)) :
    Option (noIntegrationPathDispatcher H) × BuildResult S :=
  let localCfg := cfg
  let built : Option (noIntegrationPathDispatcher H) × Option String :=
    if startup.DispatchingMode = "path" then
      (some (buildNoIntegrationPathDispatcher localCfg handler), none)
    else
      (none, some ("unsupported dispatching mode: \x27" ++ startup.DispatchingMode ++ "\x27"))
  match built with
  | (disp, some err) =>
    (disp, .returned none none (some ("error while creating proxy builder: " ++ err)))
  | (none, none) => (none, .panic "nil pointer dereference")
  | (some disp, none) =>
    match X.NewAuthenticationHandler with
    | some err => (some disp, .returned none none (some err))
    | none =>
    match X.NewAuthDecorator with
    | some err => (some disp, .returned none none (some err))
    | none =>
    match X.NewRateLimiter with
    | some err => (some disp, .fatal ("error while configuring rate limiting: " ++ err))
    | none =>
    let disp := AddBehaviour disp X.NewCachingBehaviour
    let disp := AddBehaviour disp X.NewAuthenticationBehaviour
    let disp := AddBehaviour disp X.NewRatelimitBehaviour
    match registerApplications C cfg localCfg.Applications disp with
    | (disp, .error err) => (some disp, .returned none none (some err))
    | (disp, .panic msg) => (some disp, .panic msg)
    | (disp, .nil) =>
    match X.Initialize disp with
    | some err => (some disp, .returned none none (some err))
    | none =>
    match X.GetLogger with
    | some err => (some disp, .returned none none (some err))
    | none =>
    match X.NewAdminServer with
    | .error err => (some disp, .returned none none (some err))
    | .ok adminServer =>
    match wrapLoggers httpLoggers (X.asHandler disp) with
    | .error err => (some disp, .returned none none (some err))
    | .ok server => (some disp, .returned (some server) (some adminServer) none)

/-! ## A symbolic instance of the collaborators

Handlers as terms: every collaborator is a constructor, so that two handlers
are equal exactly when they were built the same way. Used to evaluate the
definitions on concrete configurations. -/

/-- Handler terms. -/
inductive SymHandler where
  | path (c : PathClosure)
  | pattern (c : PatternClosure)
  | decorated (rw : HostRewriter) (h : SymHandler)
  | options (h : SymHandler)
  | wrapped (by_ : String) (h : SymHandler)
deriving DecidableEq, Repr

/-- The segments of a path, cut at each `/`. -/
def pathSegments : List Char → List (List Char)
  | [] => [[]]
  | c :: cs =>
    if c = '/' then [] :: pathSegments cs
    else
      match pathSegments cs with
      | [] => [[c]]
      | seg :: segs => (c :: seg) :: segs

/-- A segment that is a named parameter (`:name`) or a catch-all
(`*name`). -/
def isWildcardSegment (seg : List Char) : Bool :=
  match seg with
  | c :: _ => c = ':' || c = '*'
  | [] => false

/-- Two paths of one method that `httprouter` does not hold together: the
same path twice, or paths that part at a segment where one of them has a
wildcard. -/
def segmentsConflict : List (List Char) → List (List Char) → Bool
  | [], [] => true
  | [], _ :: _ => false
  | _ :: _, [] => false
  | a :: as, b :: bs =>
    if a = b then segmentsConflict as bs else isWildcardSegment a || isWildcardSegment b

/-- The router of the symbolic instance, with the checks of `httprouter`
named in the file header: the path begins with `/`, and no path registered
for the method conflicts with it. -/
def symAccepts (mux : List (Binding SymHandler)) (method : Method) (route : String) : Bool :=
  route.data.head? = some '/' &&
    mux.all (fun b =>
      !(b.method = method &&
        segmentsConflict (pathSegments b.route.data) (pathSegments route.data)))

/-- The collaborators as constructors of handler terms, on the router
`symAccepts`. -/
def symCollaborators : Collaborators SymHandler :=
  { pathHandle := .path
    patternHandle := .pattern
    Decorate := .decorated
    buildOptionsHandler := .options
    accepts := symAccepts }

/-- A behaviour that wraps each chain with its own wrapper. -/
def wrapBehaviour {H : Type} (onSafe onUnsafe : H → H) : Behaviour H :=
  fun safeHandler unsafeHandler _ _ _ => .ok (onSafe safeHandler, onUnsafe unsafeHandler)

/-- A behaviour whose `Apply` fails with the given error. -/
def failingBehaviour {H : Type} (err : String) : Behaviour H :=
  fun _ _ _ _ _ => .error err

/-- A configuration with no application and the OPTIONS flag as given. -/
def emptyConfiguration (optionsEnabled : Bool) : Configuration :=
  { Applications := [], Proxy := { OptionsConfiguration := { Enabled := optionsEnabled } } }

/-- A fresh dispatcher with the given behaviours added in order. -/
def dispatcherWith {H : Type} (optionsEnabled : Bool) (behaviours : List (Behaviour H)) :
    noIntegrationPathDispatcher H :=
  behaviours.foldl AddBehaviour
    (buildNoIntegrationPathDispatcher (emptyConfiguration optionsEnabled) ⟨0⟩)

/-- The symbolic dispatcher seen as an `http.Handler`: its router. -/
def symExternals : Externals SymHandler (List (Binding SymHandler)) :=
  { NewAuthenticationHandler := none
    NewAuthDecorator := none
    NewRateLimiter := none
    NewCachingBehaviour := wrapBehaviour (.wrapped "cache") id
    NewAuthenticationBehaviour := wrapBehaviour (.wrapped "auth") (.wrapped "auth")
    NewRatelimitBehaviour := wrapBehaviour (.wrapped "ratelimit") (.wrapped "ratelimit")
    Initialize := fun _ => none
    GetLogger := none
    NewAdminServer := .ok []
    asHandler := fun disp => disp.mux }

/-! ## Definitions used to state the properties -/

/-- The backend resolver as the specification words it: the explicit URL if
set; else, with a service name, the Consul name with or without the tag;
else no result. -/
def BackendResolverSpec (b : Backend) : Option String :=
  if b.Url ≠ "" then some b.Url
  else if b.Service ≠ "" then
    if b.Tag ≠ "" then some ("http://" ++ b.Tag ++ "." ++ b.Service ++ ".service.consul")
    else some ("http://" ++ b.Service ++ ".service.consul")
  else none

/-- The registrations `RegisterApplication` makes for one entry of `routes`
when the behaviours succeed on it (none when one fails). -/
def routeBindings {H : Type} (C : Collaborators H) (n : noIntegrationPathDispatcher H)
    (name : String) (appCfg : Application) (config : Configuration) (rw : HostRewriter)
    (entry : String × H) : List (Binding H) :=
  match applyBehaviours name appCfg config n.behaviours
      (C.Decorate rw entry.2) (C.Decorate rw entry.2) with
  | .ok (safeHandler, unsafeHandler) =>
    bindRoute C n.cfg.Proxy.OptionsConfiguration.Enabled entry.1 safeHandler unsafeHandler
  | .error _ => []

/-- The registrations `RegisterApplication` asks of the router when no
behaviour fails: those of each compiled route, in the order of `routes`. -/
def registrationsOf {H : Type} (C : Collaborators H) (n : noIntegrationPathDispatcher H)
    (name : String) (appCfg : Application) (config : Configuration) : List (Binding H) :=
  match (compileRoutes C n.prx name appCfg).rewriter with
  | none => []
  | some rw =>
    (compileRoutes C n.prx name appCfg).routes.flatMap (routeBindings C n name appCfg config rw)

/-- The names of the `:name` parameters of a template, left to right: group 1
of each match of `":([a-zA-Z0-9]+)"`. -/
def namedParameters (template : String) : List String :=
  (FindAllStringSubmatch template).filterMap (fun m => m.get? 1)

/-- The closure `RegisterApplication` builds for the entry
(`pattern`, `target`) of `Routing.Patterns`. -/
def patternClosureOf (prx : ProxyHandler) (name : String) (appCfg : Application)
    (entry : String × String) : PatternClosure :=
  { targetUrl := resolveBackendUrl appCfg.Backend ++ entry.2
    parameters := FindAllStringSubmatch entry.1
    appName := name
    appCfg := appCfg
    proxy := prx }

/-- The closure `RegisterApplication` builds for a path application. -/
def pathClosureOf (prx : ProxyHandler) (name : String) (appCfg : Application) : PathClosure :=
  { backendUrl := resolveBackendUrl appCfg.Backend
    appName := name
    appCfg := appCfg
    proxy := prx }

/-- Every `Apply` of the behaviour returns handlers, never an error. -/
def Behaviour.Succeeds {H : Type} (b : Behaviour H) : Prop :=
  ∀ s u name appCfg config, ∃ p, b s u name appCfg config = .ok p

/-! ## Concrete configurations -/

/-- Behaviours that wrap both chains with a named wrapper. -/
def behaviourA : Behaviour SymHandler := wrapBehaviour (.wrapped "A") (.wrapped "A")

/-- See `behaviourA`. -/
def behaviourB : Behaviour SymHandler := wrapBehaviour (.wrapped "B") (.wrapped "B")

/-- See `behaviourA`. -/
def behaviourC : Behaviour SymHandler := wrapBehaviour (.wrapped "C") (.wrapped "C")

/-- A path application mounted at `/api/` on an explicit URL. -/
def apiApp : Application :=
  { Backend := ⟨"http://x", "", ""⟩, Routing := ⟨"path", "/api/", []⟩ }

/-- The pattern application of the specification's end-to-end scenario. -/
def ordersApp : Application :=
  { Backend := ⟨"", "orders", ""⟩
    Routing := ⟨"pattern", "", [("/orders/:id", "/v1/orders/:id")]⟩ }

/-- A path application whose backend has neither URL nor service name. -/
def unresolvedApp : Application :=
  { Backend := ⟨"", "", ""⟩, Routing := ⟨"path", "/api", []⟩ }

/-- A pattern application whose target names a parameter the route lacks. -/
def mismatchApp : Application :=
  { Backend := ⟨"http://x", "", ""⟩
    Routing := ⟨"pattern", "", [("/orders/:id", "/v1/orders/:orderId")]⟩ }

/-- A pattern application with two routes onto the same target. -/
def aliasApp : Application :=
  { Backend := ⟨"http://x", "", ""⟩
    Routing := ⟨"pattern", "", [("/a/:id", "/v1/:id"), ("/b/:id", "/v1/:id")]⟩ }

/-- The application `aliasApp` with its map iterated in the other order. -/
def aliasAppSwapped : Application :=
  { Backend := ⟨"http://x", "", ""⟩
    Routing := ⟨"pattern", "", [("/b/:id", "/v1/:id"), ("/a/:id", "/v1/:id")]⟩ }

/-- An application with an unsupported routing type. -/
def bogusApp : Application :=
  { Backend := ⟨"http://x", "", ""⟩, Routing := ⟨"bogus", "/api", [("/a", "/b")]⟩ }

/-- The rewritten handler of the route `/api` of `apiApp`. -/
def apiHandler : SymHandler :=
  .decorated ⟨"http://x", [("/(?P<path>.*)", "/api/:path")]⟩
    (.path ⟨"http://x", "api", apiApp, ⟨0⟩⟩)

/-- A behaviour that wraps the safe chain only, as a cache does. -/
def safeOnlyBehaviour : Behaviour SymHandler := wrapBehaviour (.wrapped "cache") id

/-- A behaviour that wraps the unsafe chain only. -/
def unsafeOnlyBehaviour : Behaviour SymHandler := wrapBehaviour id (.wrapped "audit")

/-! ## Lemmas on Go maps -/

theorem mapGet_mapSet_self {α : Type} (m : List (String × α)) (k : String) (v : α) :
    mapGet (mapSet m k v) k = some v := by
  induction m with
  | nil => simp [mapSet, mapGet]
  | cons p rest ih =>
    obtain ⟨k', v'⟩ := p
    by_cases h : k' = k
    · simp [mapSet, mapGet, h]
    · simp [mapSet, mapGet, h, ih]

theorem mapGet_mapSet_of_ne {α : Type} (m : List (String × α)) (k k₂ : String) (v : α)
    (h : k ≠ k₂) : mapGet (mapSet m k v) k₂ = mapGet m k₂ := by
  induction m with
  | nil => simp [mapSet, mapGet, h]
  | cons p rest ih =>
    obtain ⟨k', v'⟩ := p
    by_cases h' : k' = k
    · subst h'
      simp [mapSet, mapGet, h]
    · by_cases h₂ : k' = k₂
      · subst h₂
        simp [mapSet, mapGet, h']
      · simp [mapSet, mapGet, h', h₂, ih]

theorem mapSet_of_not_mem {α : Type} (m : List (String × α)) (k : String) (v : α)
    (h : k ∉ m.map Prod.fst) : mapSet m k v = m ++ [(k, v)] := by
  induction m with
  | nil => simp [mapSet]
  | cons p rest ih =>
    obtain ⟨k', v'⟩ := p
    simp only [List.map_cons, List.mem_cons, not_or] at h
    have h' : ¬ k' = k := fun e => h.1 e.symm
    simp [mapSet, h', ih h.2]

/-! ## Lemmas on the behaviour chain -/

theorem applyBehaviours_append {H : Type} (name : String) (appCfg : Application)
    (config : Configuration) (bs cs : List (Behaviour H)) (s u : H) :
    applyBehaviours name appCfg config (bs ++ cs) s u =
      (applyBehaviours name appCfg config bs s u).bind
        (fun p => applyBehaviours name appCfg config cs p.1 p.2) := by
  induction bs generalizing s u with
  | nil => simp [applyBehaviours, Except.bind]
  | cons b rest ih =>
    simp only [List.cons_append, applyBehaviours]
    cases hb : b s u name appCfg config with
    | error e => simp [Except.bind]
    | ok p => obtain ⟨s', u'⟩ := p; simpa using ih s' u'

theorem applyBehaviours_eq_foldlM {H : Type} (name : String) (appCfg : Application)
    (config : Configuration) (bs : List (Behaviour H)) (s u : H) :
    applyBehaviours name appCfg config bs s u =
      bs.foldlM (fun p b => b p.1 p.2 name appCfg config) (s, u) := by
  induction bs generalizing s u with
  | nil => simp [applyBehaviours, pure, Except.pure]
  | cons b rest ih =>
    simp only [applyBehaviours, List.foldlM_cons, bind, Except.bind]
    cases hb : b s u name appCfg config with
    | error e => simp
    | ok p => obtain ⟨s', u'⟩ := p; simpa using ih s' u'

theorem applyBehaviours_wrap {H : Type} (name : String) (appCfg : Application)
    (config : Configuration) (ws : List ((H → H) × (H → H))) (s u : H) :
    applyBehaviours name appCfg config (ws.map (fun w => wrapBehaviour w.1 w.2)) s u =
      .ok (ws.foldl (fun x w => w.1 x) s, ws.foldl (fun x w => w.2 x) u) := by
  induction ws generalizing s u with
  | nil => simp [applyBehaviours]
  | cons w rest ih => simp [applyBehaviours, wrapBehaviour, ih]

theorem applyBehaviours_error_origin {H : Type} (name : String) (appCfg : Application)
    (config : Configuration) (bs : List (Behaviour H)) (s u : H) (e : String)
    (h : applyBehaviours name appCfg config bs s u = .error e) :
    ∃ b ∈ bs, ∃ s' u', b s' u' name appCfg config = .error e := by
  induction bs generalizing s u with
  | nil => simp [applyBehaviours] at h
  | cons b rest ih =>
    simp only [applyBehaviours] at h
    cases hb : b s u name appCfg config with
    | error e' =>
      rw [hb] at h
      simp only [Except.error.injEq] at h
      exact ⟨b, List.mem_cons_self _ _, s, u, by rw [hb, h]⟩
    | ok p =>
      obtain ⟨s', u'⟩ := p
      rw [hb] at h
      obtain ⟨b', hb', hx⟩ := ih s' u' h
      exact ⟨b', List.mem_cons_of_mem _ hb', hx⟩

theorem applyBehaviours_succeeds {H : Type} (name : String) (appCfg : Application)
    (config : Configuration) (bs : List (Behaviour H)) (s u : H)
    (h : ∀ b ∈ bs, Behaviour.Succeeds b) :
    ∃ p, applyBehaviours name appCfg config bs s u = .ok p := by
  induction bs generalizing s u with
  | nil => exact ⟨(s, u), rfl⟩
  | cons b rest ih =>
    obtain ⟨p, hp⟩ := h b (List.mem_cons_self _ _) s u name appCfg config
    obtain ⟨s', u'⟩ := p
    simp only [applyBehaviours, hp]
    exact ih s' u' (fun b' hb' => h b' (List.mem_cons_of_mem _ hb'))

/-! ## Lemmas on the registration loop -/

theorem registerAll_taken {H : Type} (C : Collaborators H) (bs mux : List (Binding H))
    (h : (registerAll C bs mux).2 = true) : (registerAll C bs mux).1 = mux ++ bs := by
  induction bs generalizing mux with
  | nil => simp [registerAll]
  | cons b rest ih =>
    simp only [registerAll] at h ⊢
    by_cases hb : C.accepts mux b.method b.route = true
    · rw [if_pos hb] at h ⊢
      rw [ih _ h]
      simp
    · rw [if_neg hb] at h
      simp at h

theorem registerAll_append {H : Type} (C : Collaborators H) (as bs mux : List (Binding H)) :
    registerAll C (as ++ bs) mux =
      if (registerAll C as mux).2 = true then registerAll C bs (registerAll C as mux).1
      else registerAll C as mux := by
  induction as generalizing mux with
  | nil => simp [registerAll]
  | cons a rest ih =>
    simp only [List.cons_append, registerAll]
    by_cases ha : C.accepts mux a.method a.route = true
    · simp only [if_pos ha]
      exact ih _
    · simp [if_neg ha]

theorem registerRoutes_nil_exact {H : Type} (C : Collaborators H)
    (n : noIntegrationPathDispatcher H) (name : String) (appCfg : Application)
    (config : Configuration) (rw : HostRewriter) (routes : List (String × H))
    (mux : List (Binding H))
    (h : (registerRoutes C n name appCfg config (some rw) routes mux).2 = .nil) :
    (registerRoutes C n name appCfg config (some rw) routes mux).1 =
        mux ++ routes.flatMap (routeBindings C n name appCfg config rw) ∧
      ∀ p ∈ routes, ∃ s u,
        applyBehaviours name appCfg config n.behaviours
          (C.Decorate rw p.2) (C.Decorate rw p.2) = .ok (s, u) := by
  induction routes generalizing mux with
  | nil => simp [registerRoutes]
  | cons p rest ih =>
    obtain ⟨route, handler⟩ := p
    simp only [registerRoutes] at h ⊢
    cases hb : applyBehaviours name appCfg config n.behaviours
        (C.Decorate rw handler) (C.Decorate rw handler) with
    | error e => rw [hb] at h; simp at h
    | ok q =>
      obtain ⟨s, u⟩ := q
      rw [hb] at h
      simp only at h ⊢
      cases hr : registerAll C
          (bindRoute C n.cfg.Proxy.OptionsConfiguration.Enabled route s u) mux with
      | mk mux' taken =>
        rw [hr] at h
        cases taken with
        | false => simp at h
        | true =>
          simp only at h ⊢
          have hmux : mux' = mux ++
              bindRoute C n.cfg.Proxy.OptionsConfiguration.Enabled route s u := by
            have := registerAll_taken C _ mux (by rw [hr])
            rw [hr] at this
            exact this
          obtain ⟨h₁, h₂⟩ := ih _ h
          refine ⟨?_, ?_⟩
          · rw [h₁, hmux]
            simp only [hb, List.flatMap_cons, routeBindings, List.append_assoc]
          · intro p hp
            rcases List.mem_cons.1 hp with rfl | hp
            · exact ⟨s, u, hb⟩
            · exact h₂ p hp

theorem registerRoutes_error_origin {H : Type} (C : Collaborators H)
    (n : noIntegrationPathDispatcher H) (name : String) (appCfg : Application)
    (config : Configuration) (rewriter : Option HostRewriter) (routes : List (String × H))
    (mux : List (Binding H)) (e : String)
    (h : (registerRoutes C n name appCfg config rewriter routes mux).2 = .error e) :
    ∃ b ∈ n.behaviours, ∃ s u, b s u name appCfg config = .error e := by
  induction routes generalizing mux with
  | nil => simp [registerRoutes] at h
  | cons p rest ih =>
    obtain ⟨route, handler⟩ := p
    cases rewriter with
    | none => simp [registerRoutes] at h
    | some rw =>
      simp only [registerRoutes] at h
      cases hb : applyBehaviours name appCfg config n.behaviours
          (C.Decorate rw handler) (C.Decorate rw handler) with
      | error e' =>
        rw [hb] at h
        simp only [Result.error.injEq] at h
        subst h
        exact applyBehaviours_error_origin name appCfg config _ _ _ _ hb
      | ok q =>
        obtain ⟨s, u⟩ := q
        rw [hb] at h
        simp only at h
        cases hr : registerAll C
            (bindRoute C n.cfg.Proxy.OptionsConfiguration.Enabled route s u) mux with
        | mk mux' taken =>
          rw [hr] at h
          cases taken with
          | false => simp at h
          | true => exact ih _ h

theorem registerRoutes_succeeds {H : Type} (C : Collaborators H)
    (n : noIntegrationPathDispatcher H) (name : String) (appCfg : Application)
    (config : Configuration) (rw : HostRewriter) (routes : List (String × H))
    (mux : List (Binding H)) (h : ∀ b ∈ n.behaviours, Behaviour.Succeeds b)
    (hacc : (registerAll C (routes.flatMap (routeBindings C n name appCfg config rw)) mux).2 =
      true) :
    (registerRoutes C n name appCfg config (some rw) routes mux).2 = .nil := by
  induction routes generalizing mux with
  | nil => simp [registerRoutes]
  | cons p rest ih =>
    obtain ⟨route, handler⟩ := p
    obtain ⟨q, hq⟩ := applyBehaviours_succeeds name appCfg config n.behaviours
      (C.Decorate rw handler) (C.Decorate rw handler) h
    obtain ⟨s, u⟩ := q
    simp only [List.flatMap_cons, routeBindings, hq, registerAll_append] at hacc
    simp only [registerRoutes, hq]
    cases hr : registerAll C
        (bindRoute C n.cfg.Proxy.OptionsConfiguration.Enabled route s u) mux with
    | mk mux' taken =>
      rw [hr] at hacc
      cases taken with
      | false => simp at hacc
      | true =>
        simp only [if_true] at hacc
        exact ih _ hacc

/-! ## Lemmas on route compilation -/

theorem compileRoutes_rewriter_none {H : Type} (C : Collaborators H) (prx : ProxyHandler)
    (name : String) (appCfg : Application)
    (h : (compileRoutes C prx name appCfg).rewriter = none) :
    (compileRoutes C prx name appCfg).routes = [] := by
  unfold compileRoutes at h ⊢
  by_cases h₁ : appCfg.Routing.Type_ = "path"
  · simp [h₁] at h
  · by_cases h₂ : appCfg.Routing.Type_ = "pattern"
    · simp [h₁, h₂] at h
    · simp [h₁, h₂]

theorem compileRoutes_path {H : Type} (C : Collaborators H) (prx : ProxyHandler)
    (name : String) (appCfg : Application) (h : appCfg.Routing.Type_ = "path") :
    compileRoutes C prx name appCfg =
      { routes := mapSet (mapSet [] (TrimRight appCfg.Routing.Path "/")
            (C.pathHandle (pathClosureOf prx name appCfg)))
          (TrimRight appCfg.Routing.Path "/" ++ "/*path")
          (C.pathHandle (pathClosureOf prx name appCfg))
        rewriter := some
          { backendUrl := resolveBackendUrl appCfg.Backend
            mapping := [("/(?P<path>.*)", TrimRight appCfg.Routing.Path "/" ++ "/:path")] } } := by
  simp [compileRoutes, h, pathClosureOf]

theorem compileRoutes_pattern {H : Type} (C : Collaborators H) (prx : ProxyHandler)
    (name : String) (appCfg : Application) (h : appCfg.Routing.Type_ = "pattern") :
    compileRoutes C prx name appCfg =
      { routes := (appCfg.Routing.Patterns.foldl
          (patternStep C prx name appCfg (resolveBackendUrl appCfg.Backend)) ([], [])).2
        rewriter := some
          { backendUrl := resolveBackendUrl appCfg.Backend
            mapping := (appCfg.Routing.Patterns.foldl
              (patternStep C prx name appCfg (resolveBackendUrl appCfg.Backend)) ([], [])).1 } } := by
  have h' : ¬ appCfg.Routing.Type_ = "path" := by rw [h]; decide
  simp [compileRoutes, h, h']

theorem compileRoutes_other {H : Type} (C : Collaborators H) (prx : ProxyHandler)
    (name : String) (appCfg : Application) (h₁ : appCfg.Routing.Type_ ≠ "path")
    (h₂ : appCfg.Routing.Type_ ≠ "pattern") :
    compileRoutes C prx name appCfg = { routes := [], rewriter := none } := by
  simp [compileRoutes, h₁, h₂]

theorem patternStep_eq {H : Type} (C : Collaborators H) (prx : ProxyHandler) (name : String)
    (appCfg : Application) (acc : List (String × String) × List (String × H))
    (entry : String × String) :
    patternStep C prx name appCfg (resolveBackendUrl appCfg.Backend) acc entry =
      (mapSet acc.1 (targetPatternOf entry.2) entry.1,
        mapSet acc.2 entry.1 (C.patternHandle (patternClosureOf prx name appCfg entry))) :=
  rfl

theorem patternFold_routes {H : Type} (C : Collaborators H) (prx : ProxyHandler) (name : String)
    (appCfg : Application) (M : List (String × String)) (hM : (M.map Prod.fst).Nodup) :
    (M.foldl (patternStep C prx name appCfg (resolveBackendUrl appCfg.Backend)) ([], [])).2 =
      M.map (fun e => (e.1, C.patternHandle (patternClosureOf prx name appCfg e))) := by
  induction M using List.reverseRecOn with
  | nil => rfl
  | append_singleton M x ih =>
    rw [List.map_append, List.nodup_append] at hM
    obtain ⟨hM₁, -, hdisj⟩ := hM
    have hx : x.1 ∉ M.map Prod.fst := fun hmem =>
      hdisj hmem (by simp)
    rw [List.foldl_append, List.foldl_cons, List.foldl_nil, patternStep_eq, ih hM₁]
    simp only [List.map_append, List.map_cons, List.map_nil]
    apply mapSet_of_not_mem
    simpa [List.map_map, Function.comp_def] using hx

theorem patternFold_mapping {H : Type} (C : Collaborators H) (prx : ProxyHandler) (name : String)
    (appCfg : Application) (M : List (String × String)) (K : String)
    (h : ∃ e ∈ M, targetPatternOf e.2 = K) :
    ∃ e ∈ M, targetPatternOf e.2 = K ∧
      mapGet (M.foldl (patternStep C prx name appCfg (resolveBackendUrl appCfg.Backend))
        ([], [])).1 K = some e.1 := by
  induction M using List.reverseRecOn with
  | nil => simp at h
  | append_singleton M x ih =>
    rw [List.foldl_append, List.foldl_cons, List.foldl_nil, patternStep_eq]
    by_cases hx : targetPatternOf x.2 = K
    · exact ⟨x, by simp, hx, by rw [hx]; exact mapGet_mapSet_self _ _ _⟩
    · obtain ⟨e, he, heK⟩ := h
      have he' : e ∈ M := by
        rcases List.mem_append.1 he with he | he
        · exact he
        · simp only [List.mem_singleton] at he
          subst he
          exact absurd heK hx
      obtain ⟨e', he'M, he'K, hget⟩ := ih ⟨e, he', heK⟩
      refine ⟨e', List.mem_append_left _ he'M, he'K, ?_⟩
      simp only
      rw [mapGet_mapSet_of_ne _ _ _ _ hx]
      exact hget

/-! ## Lemmas on `TrimRight` -/

theorem TrimRight_slash_decompose (s : String) :
    ∃ k, s = TrimRight s "/" ++ String.mk (List.replicate k '/') := by
  let p : Char → Bool := fun c => decide (c ∈ "/".data)
  refine ⟨(s.data.reverse.takeWhile p).length, ?_⟩
  apply String.ext
  rw [String.data_append]
  show s.data = (s.data.reverse.dropWhile p).reverse ++ _
  have hall : s.data.reverse.takeWhile p = List.replicate (s.data.reverse.takeWhile p).length '/' := by
    rw [List.eq_replicate_iff]
    refine ⟨rfl, fun c hc => ?_⟩
    have := List.mem_takeWhile_imp hc
    simpa [p] using this
  have hsplit := List.takeWhile_append_dropWhile p s.data.reverse
  have : s.data = (s.data.reverse.dropWhile p).reverse ++ (s.data.reverse.takeWhile p).reverse := by
    rw [← List.reverse_append, hsplit, List.reverse_reverse]
  rw [hall, List.reverse_replicate] at this
  simpa using this

theorem TrimRight_slash_last (s : String) :
    (TrimRight s "/").data.getLast? ≠ some '/' := by
  let p : Char → Bool := fun c => decide (c ∈ "/".data)
  show (s.data.reverse.dropWhile p).reverse.getLast? ≠ some '/'
  rw [List.getLast?_reverse]
  have := List.head?_dropWhile_not p s.data.reverse
  intro h
  rw [h] at this
  simp [p] at this

theorem String_ne_append_of_ne_empty (s t : String) (h : t ≠ "") : s ≠ s ++ t := by
  intro e
  have := congrArg String.data e
  rw [String.data_append, List.self_eq_append_right] at this
  exact h (String.ext this)

/-! ## Lemmas on `RegisterApplication` -/

theorem RegisterApplication_mux_exact {H : Type} (C : Collaborators H)
    (n : noIntegrationPathDispatcher H) (name : String) (appCfg : Application)
    (config : Configuration) (rw : HostRewriter)
    (hrw : (compileRoutes C n.prx name appCfg).rewriter = some rw)
    (h : (RegisterApplication C n name appCfg config).2 = .nil) :
    (RegisterApplication C n name appCfg config).1.mux =
      n.mux ++ (compileRoutes C n.prx name appCfg).routes.flatMap
        (routeBindings C n name appCfg config rw) := by
  simp only [RegisterApplication, hrw] at h ⊢
  exact (registerRoutes_nil_exact C n name appCfg config rw _ _ h).1

theorem RegisterApplication_nil_bound {H : Type} (C : Collaborators H)
    (n : noIntegrationPathDispatcher H) (name : String) (appCfg : Application)
    (config : Configuration)
    (h : (RegisterApplication C n name appCfg config).2 = .nil) :
    ∀ p ∈ (compileRoutes C n.prx name appCfg).routes, ∃ rw s u,
      (compileRoutes C n.prx name appCfg).rewriter = some rw ∧
      applyBehaviours name appCfg config n.behaviours
        (C.Decorate rw p.2) (C.Decorate rw p.2) = .ok (s, u) ∧
      ∀ b ∈ bindRoute C n.cfg.Proxy.OptionsConfiguration.Enabled p.1 s u,
        b ∈ (RegisterApplication C n name appCfg config).1.mux := by
  intro p hp
  cases hrw : (compileRoutes C n.prx name appCfg).rewriter with
  | none =>
    rw [compileRoutes_rewriter_none C n.prx name appCfg hrw] at hp
    simp at hp
  | some rw =>
    have hex := RegisterApplication_mux_exact C n name appCfg config rw hrw h
    simp only [RegisterApplication, hrw] at h
    obtain ⟨s, u, hsu⟩ := (registerRoutes_nil_exact C n name appCfg config rw _ _ h).2 p hp
    refine ⟨rw, s, u, rfl, hsu, fun b hb => ?_⟩
    rw [hex]
    apply List.mem_append_right
    rw [List.mem_flatMap]
    exact ⟨p, hp, by simpa only [routeBindings, hsu] using hb⟩

theorem RegisterApplication_error_origin {H : Type} (C : Collaborators H)
    (n : noIntegrationPathDispatcher H) (name : String) (appCfg : Application)
    (config : Configuration) (e : String)
    (h : (RegisterApplication C n name appCfg config).2 = .error e) :
    ∃ b ∈ n.behaviours, ∃ s u, b s u name appCfg config = .error e := by
  simp only [RegisterApplication] at h
  exact registerRoutes_error_origin C n name appCfg config _ _ _ e h

theorem RegisterApplication_succeeds {H : Type} (C : Collaborators H)
    (n : noIntegrationPathDispatcher H) (name : String) (appCfg : Application)
    (config : Configuration) (h : ∀ b ∈ n.behaviours, Behaviour.Succeeds b)
    (hacc : (registerAll C (registrationsOf C n name appCfg config) n.mux).2 = true) :
    (RegisterApplication C n name appCfg config).2 = .nil := by
  simp only [RegisterApplication]
  cases hrw : (compileRoutes C n.prx name appCfg).rewriter with
  | none =>
    rw [compileRoutes_rewriter_none C n.prx name appCfg hrw]
    rfl
  | some rw =>
    simp only [registrationsOf, hrw] at hacc
    exact registerRoutes_succeeds C n name appCfg config rw _ _ h hacc

/-- Where the router refuses a registration the call panics: a path
application mounted at `/` (its first route is the empty path), a pattern map
with the routes `/a/:id` and `/a/:name` (conflicting wildcards), and a route
template without a leading `/`. -/
theorem RegisterApplication_panics_on_refused_route :
    (RegisterApplication symCollaborators (dispatcherWith false []) "root"
      ⟨⟨"", "", ""⟩, ⟨"path", "/", []⟩⟩ (emptyConfiguration false)).2 =
        .panic "httprouter: registration refused" ∧
    (RegisterApplication symCollaborators (dispatcherWith false []) "a"
      ⟨⟨"http://x", "", ""⟩, ⟨"pattern", "", [("/a/:id", "/v1/:id"), ("/a/:name", "/v2/:name")]⟩⟩
      (emptyConfiguration false)).2 = .panic "httprouter: registration refused" ∧
    (RegisterApplication symCollaborators (dispatcherWith false []) "orders"
      ⟨⟨"http://x", "", ""⟩, ⟨"pattern", "", [("orders/:id", "/v1/:orderId")]⟩⟩
      (emptyConfiguration false)).2 = .panic "httprouter: registration refused" := by
  decide

/-! ## The properties -/

/-- C1. The base URL computed by `RegisterApplication` is the one of the
specification's resolver wherever that resolver gives a result: the explicit
URL unchanged when it is set, whatever the service and tag; otherwise, with a
service name, `http://{tag}.{service}.service.consul` with a tag and
`http://{service}.service.consul` without; it is the URL every compiled
rewriter carries. The three examples of the specification evaluate as
stated. -/
theorem backend_resolution_refines_spec :
    (∀ b u, BackendResolverSpec b = some u → resolveBackendUrl b = u) ∧
    (∀ b : Backend, b.Url ≠ "" → resolveBackendUrl b = b.Url) ∧
    (∀ b : Backend, b.Url = "" → b.Service ≠ "" → b.Tag ≠ "" →
      resolveBackendUrl b = "http://" ++ b.Tag ++ "." ++ b.Service ++ ".service.consul") ∧
    (∀ b : Backend, b.Url = "" → b.Service ≠ "" → b.Tag = "" →
      resolveBackendUrl b = "http://" ++ b.Service ++ ".service.consul") ∧
    (∀ (H : Type) (C : Collaborators H) prx name appCfg rw,
      (compileRoutes C prx name appCfg).rewriter = some rw →
        rw.backendUrl = resolveBackendUrl appCfg.Backend) ∧
    resolveBackendUrl ⟨"", "orders", "v2"⟩ = "http://v2.orders.service.consul" ∧
    resolveBackendUrl ⟨"", "orders", ""⟩ = "http://orders.service.consul" ∧
    (∀ service tag, resolveBackendUrl ⟨"http://x", service, tag⟩ = "http://x") := by
  refine ⟨?_, ?_, ?_, ?_, ?_, by decide, by decide, ?_⟩
  · intro b u h
    by_cases h₁ : b.Url = ""
    · by_cases h₂ : b.Service = ""
      · simp [BackendResolverSpec, h₁, h₂] at h
      · by_cases h₃ : b.Tag = ""
        · simp [BackendResolverSpec, h₁, h₂, h₃] at h
          simpa [resolveBackendUrl, h₁, h₂, h₃] using h
        · simp [BackendResolverSpec, h₁, h₂, h₃] at h
          simpa [resolveBackendUrl, h₁, h₂, h₃] using h
    · simp [BackendResolverSpec, h₁] at h
      simpa [resolveBackendUrl, h₁] using h
  · intro b h
    simp [resolveBackendUrl, h]
  · intro b h₁ h₂ h₃
    simp [resolveBackendUrl, h₁, h₂, h₃]
  · intro b h₁ h₂ h₃
    simp [resolveBackendUrl, h₁, h₂, h₃]
  · intro H C prx name appCfg rw h
    by_cases h₁ : appCfg.Routing.Type_ = "path"
    · rw [compileRoutes_path C prx name appCfg h₁] at h
      simp only [Option.some.injEq] at h
      rw [← h]
    · by_cases h₂ : appCfg.Routing.Type_ = "pattern"
      · rw [compileRoutes_pattern C prx name appCfg h₂] at h
        simp only [Option.some.injEq] at h
        rw [← h]
      · rw [compileRoutes_other C prx name appCfg h₁ h₂] at h
        simp at h
  · intro service tag
    simp [resolveBackendUrl]

/-- Witness of C1: the descriptor (service `orders`, tag `v2`) at which the
specification's resolver gives the tagged Consul name. -/
theorem backend_resolution_refines_spec_witness :
    BackendResolverSpec ⟨"", "orders", "v2"⟩ = some "http://v2.orders.service.consul" ∧
    resolveBackendUrl ⟨"", "orders", "v2"⟩ = "http://v2.orders.service.consul" :=
  ⟨by decide, backend_resolution_refines_spec.1 _ _ (by decide)⟩

/-- C2. Behaviours added with `AddBehaviour` in the order A, B, C are held
in that order; wrapping behaviours A, B, C turn both chains of a handler `h`
into `C (B (A h))`; for every behaviour list the final pair is the left fold
of `Apply` over the list in registration order from `(h, h)`; and after a
successful `RegisterApplication` every compiled route has GET bound to the
first and POST to the second component of that fold on its rewritten
handler. -/
theorem behaviours_fold_in_registration_order :
    (∀ (H : Type) (n : noIntegrationPathDispatcher H) (A B C : Behaviour H),
      (AddBehaviour (AddBehaviour (AddBehaviour n A) B) C).behaviours =
        n.behaviours ++ [A, B, C]) ∧
    (∀ (H : Type) name appCfg config (a b c : H → H) (h : H),
      applyBehaviours name appCfg config
          [wrapBehaviour a a, wrapBehaviour b b, wrapBehaviour c c] h h =
        .ok (c (b (a h)), c (b (a h)))) ∧
    (∀ (H : Type) name appCfg config (bs : List (Behaviour H)) (h : H),
      applyBehaviours name appCfg config bs h h =
        bs.foldlM (fun p b => b p.1 p.2 name appCfg config) (h, h)) ∧
    (∀ (H : Type) (C : Collaborators H) (n : noIntegrationPathDispatcher H) name appCfg config,
      (RegisterApplication C n name appCfg config).2 = .nil →
      ∀ route handler, (route, handler) ∈ (compileRoutes C n.prx name appCfg).routes →
      ∃ rw s u, (compileRoutes C n.prx name appCfg).rewriter = some rw ∧
        n.behaviours.foldlM (fun p b => b p.1 p.2 name appCfg config)
          (C.Decorate rw handler, C.Decorate rw handler) = .ok (s, u) ∧
        ⟨.GET, route, s⟩ ∈ (RegisterApplication C n name appCfg config).1.mux ∧
        ⟨.POST, route, u⟩ ∈ (RegisterApplication C n name appCfg config).1.mux) := by
  refine ⟨?_, ?_, ?_, ?_⟩
  · intro H n A B C
    simp [AddBehaviour]
  · intro H name appCfg config a b c h
    simp [applyBehaviours, wrapBehaviour]
  · intro H name appCfg config bs h
    exact applyBehaviours_eq_foldlM name appCfg config bs h h
  · intro H C n name appCfg config hnil route handler hmem
    obtain ⟨rw, s, u, hrw, hsu, hb⟩ :=
      RegisterApplication_nil_bound C n name appCfg config hnil _ hmem
    refine ⟨rw, s, u, hrw, ?_, hb _ (by simp [bindRoute]), hb _ (by simp [bindRoute])⟩
    rw [← applyBehaviours_eq_foldlM]
    exact hsu

/-- Witness of C2: with A, B, C registered in that order the route `/api` of
a path application has GET and POST bound to `C (B (A h))`. -/
theorem behaviours_fold_in_registration_order_witness :
    (⟨.GET, "/api", .wrapped "C" (.wrapped "B" (.wrapped "A" apiHandler))⟩ :
        Binding SymHandler) ∈
      (RegisterApplication symCollaborators
        (dispatcherWith false [behaviourA, behaviourB, behaviourC]) "api" apiApp
        (emptyConfiguration false)).1.mux ∧
    (∃ rw s u,
      (compileRoutes symCollaborators (⟨0⟩ : ProxyHandler) "api" apiApp).rewriter = some rw ∧
      [behaviourA, behaviourB, behaviourC].foldlM
          (fun p b => b p.1 p.2 "api" apiApp (emptyConfiguration false))
          (symCollaborators.Decorate rw (.path ⟨"http://x", "api", apiApp, ⟨0⟩⟩),
            symCollaborators.Decorate rw (.path ⟨"http://x", "api", apiApp, ⟨0⟩⟩)) =
        .ok (s, u) ∧
      (⟨.GET, "/api", s⟩ : Binding SymHandler) ∈
        (RegisterApplication symCollaborators
          (dispatcherWith false [behaviourA, behaviourB, behaviourC]) "api" apiApp
          (emptyConfiguration false)).1.mux ∧
      (⟨.POST, "/api", u⟩ : Binding SymHandler) ∈
        (RegisterApplication symCollaborators
          (dispatcherWith false [behaviourA, behaviourB, behaviourC]) "api" apiApp
          (emptyConfiguration false)).1.mux) :=
  ⟨by decide,
    behaviours_fold_in_registration_order.2.2.2 SymHandler symCollaborators
      (dispatcherWith false [behaviourA, behaviourB, behaviourC]) "api" apiApp
      (emptyConfiguration false) (by decide) "/api" (.path ⟨"http://x", "api", apiApp, ⟨0⟩⟩)
      (by decide)⟩

/-- C3, counterexample. With A, B, C registered in that order the handler
bound to GET on `/api` is `C (B (A h))`, and `A (B (C h))` is bound
nowhere. -/
theorem reverse_order_counterexample :
    (RegisterApplication symCollaborators
      (dispatcherWith false [behaviourA, behaviourB, behaviourC]) "api" apiApp
      (emptyConfiguration false)).2 = .nil ∧
    (⟨.GET, "/api", .wrapped "C" (.wrapped "B" (.wrapped "A" apiHandler))⟩ :
        Binding SymHandler) ∈
      (RegisterApplication symCollaborators
        (dispatcherWith false [behaviourA, behaviourB, behaviourC]) "api" apiApp
        (emptyConfiguration false)).1.mux ∧
    ∀ method, (⟨method, "/api", .wrapped "A" (.wrapped "B" (.wrapped "C" apiHandler))⟩ :
        Binding SymHandler) ∉
      (RegisterApplication symCollaborators
        (dispatcherWith false [behaviourA, behaviourB, behaviourC]) "api" apiApp
        (emptyConfiguration false)).1.mux := by
  refine ⟨by decide, by decide, ?_⟩
  intro method
  cases method <;> decide

/-- C3, amended. Behaviours are applied in registration order: the
first-registered behaviour is applied to the rewritten handler itself
(innermost, closest to the backend call) and a behaviour added last with
`AddBehaviour` is applied to the result of all earlier ones (outermost,
closest to the client); after a successful `RegisterApplication` GET and POST
of every compiled route are bound to what that last behaviour returned. -/
theorem last_registered_behaviour_is_outermost :
    (∀ (H : Type) (n : noIntegrationPathDispatcher H) (b : Behaviour H) name appCfg config
        (h : H),
      applyBehaviours name appCfg config (AddBehaviour n b).behaviours h h =
        (applyBehaviours name appCfg config n.behaviours h h).bind
          (fun p => b p.1 p.2 name appCfg config)) ∧
    (∀ (H : Type) (b : Behaviour H) (bs : List (Behaviour H)) name appCfg config (h : H),
      applyBehaviours name appCfg config (b :: bs) h h =
        (b h h name appCfg config).bind
          (fun p => applyBehaviours name appCfg config bs p.1 p.2)) ∧
    (∀ (H : Type) (C : Collaborators H) (n : noIntegrationPathDispatcher H) (b : Behaviour H)
        name appCfg config,
      (RegisterApplication C (AddBehaviour n b) name appCfg config).2 = .nil →
      ∀ route handler, (route, handler) ∈ (compileRoutes C n.prx name appCfg).routes →
      ∃ rw s u s' u', (compileRoutes C n.prx name appCfg).rewriter = some rw ∧
        applyBehaviours name appCfg config n.behaviours
          (C.Decorate rw handler) (C.Decorate rw handler) = .ok (s, u) ∧
        b s u name appCfg config = .ok (s', u') ∧
        ⟨.GET, route, s'⟩ ∈
          (RegisterApplication C (AddBehaviour n b) name appCfg config).1.mux ∧
        ⟨.POST, route, u'⟩ ∈
          (RegisterApplication C (AddBehaviour n b) name appCfg config).1.mux) := by
  refine ⟨?_, ?_, ?_⟩
  · intro H n b name appCfg config h
    simp only [AddBehaviour, applyBehaviours_append]
    congr 1
    funext p
    simp only [applyBehaviours]
    cases b p.1 p.2 name appCfg config with
    | error e => rfl
    | ok q => rfl
  · intro H b bs name appCfg config h
    simp only [applyBehaviours]
    cases b h h name appCfg config with
    | error e => rfl
    | ok q => rfl
  · intro H C n b name appCfg config hnil route handler hmem
    obtain ⟨rw, s', u', hrw, hsu, hb⟩ :=
      RegisterApplication_nil_bound C (AddBehaviour n b) name appCfg config hnil _ hmem
    have hsu' : applyBehaviours name appCfg config (n.behaviours ++ [b])
        (C.Decorate rw handler) (C.Decorate rw handler) = .ok (s', u') := hsu
    rw [applyBehaviours_append] at hsu'
    cases hpre : applyBehaviours name appCfg config n.behaviours
        (C.Decorate rw handler) (C.Decorate rw handler) with
    | error e => rw [hpre] at hsu'; simp [Except.bind] at hsu'
    | ok q =>
      obtain ⟨s, u⟩ := q
      rw [hpre] at hsu'
      simp only [Except.bind, applyBehaviours] at hsu'
      refine ⟨rw, s, u, s', u', hrw, hpre, ?_, hb _ (by simp [bindRoute]),
        hb _ (by simp [bindRoute])⟩
      cases hbsu : b s u name appCfg config with
      | error e => rw [hbsu] at hsu'; simp at hsu'
      | ok q' =>
        obtain ⟨s₂, u₂⟩ := q'
        rw [hbsu] at hsu'
        simpa using hsu'

/-- Witness of C3 amended: C added last to the dispatcher holding A and B is
applied to `B (A h)` and its result is what GET and POST are bound to. -/
theorem last_registered_behaviour_is_outermost_witness :
    ∃ rw s u s' u',
      (compileRoutes symCollaborators (⟨0⟩ : ProxyHandler) "api" apiApp).rewriter = some rw ∧
      applyBehaviours "api" apiApp (emptyConfiguration false)
          (dispatcherWith false [behaviourA, behaviourB]).behaviours
          (symCollaborators.Decorate rw (.path ⟨"http://x", "api", apiApp, ⟨0⟩⟩))
          (symCollaborators.Decorate rw (.path ⟨"http://x", "api", apiApp, ⟨0⟩⟩)) =
        .ok (s, u) ∧
      behaviourC s u "api" apiApp (emptyConfiguration false) = .ok (s', u') ∧
      (⟨.GET, "/api", s'⟩ : Binding SymHandler) ∈
        (RegisterApplication symCollaborators
          (AddBehaviour (dispatcherWith false [behaviourA, behaviourB]) behaviourC)
          "api" apiApp (emptyConfiguration false)).1.mux ∧
      (⟨.POST, "/api", u'⟩ : Binding SymHandler) ∈
        (RegisterApplication symCollaborators
          (AddBehaviour (dispatcherWith false [behaviourA, behaviourB]) behaviourC)
          "api" apiApp (emptyConfiguration false)).1.mux :=
  last_registered_behaviour_is_outermost.2.2 SymHandler symCollaborators
    (dispatcherWith false [behaviourA, behaviourB]) behaviourC "api" apiApp
    (emptyConfiguration false) (by decide) "/api" (.path ⟨"http://x", "api", apiApp, ⟨0⟩⟩)
    (by decide)

/-- C4. After a successful `RegisterApplication` every compiled route has GET
and HEAD bound to the final safe handler, POST, PUT, PATCH and DELETE to the
final unsafe handler, and OPTIONS to the safe handler when
`OptionsConfiguration.Enabled` is false and to `buildOptionsHandler` of it
when the flag is true, and the call adds no other registration. For
behaviours that wrap each chain with its own wrapper the safe handler is the
fold of the safe wrappers alone and the unsafe handler the fold of the unsafe
wrappers alone, so a behaviour wrapping only the unsafe chain leaves the
handler bound to GET as it is without that behaviour, and one wrapping only
the safe chain leaves the handler bound to POST so. -/
theorem methods_bound_to_safe_and_unsafe_handlers :
    (∀ (H : Type) (C : Collaborators H) (n : noIntegrationPathDispatcher H) name appCfg config,
      (RegisterApplication C n name appCfg config).2 = .nil →
      (∀ route handler, (route, handler) ∈ (compileRoutes C n.prx name appCfg).routes →
        ∃ rw s u, (compileRoutes C n.prx name appCfg).rewriter = some rw ∧
          applyBehaviours name appCfg config n.behaviours
            (C.Decorate rw handler) (C.Decorate rw handler) = .ok (s, u) ∧
          ⟨.GET, route, s⟩ ∈ (RegisterApplication C n name appCfg config).1.mux ∧
          ⟨.HEAD, route, s⟩ ∈ (RegisterApplication C n name appCfg config).1.mux ∧
          ⟨.POST, route, u⟩ ∈ (RegisterApplication C n name appCfg config).1.mux ∧
          ⟨.PUT, route, u⟩ ∈ (RegisterApplication C n name appCfg config).1.mux ∧
          ⟨.PATCH, route, u⟩ ∈ (RegisterApplication C n name appCfg config).1.mux ∧
          ⟨.DELETE, route, u⟩ ∈ (RegisterApplication C n name appCfg config).1.mux ∧
          ⟨.OPTIONS, route,
              if n.cfg.Proxy.OptionsConfiguration.Enabled = true
              then C.buildOptionsHandler s else s⟩ ∈
            (RegisterApplication C n name appCfg config).1.mux) ∧
      (∀ b ∈ (RegisterApplication C n name appCfg config).1.mux, b ∈ n.mux ∨
        ∃ route handler rw s u,
          (route, handler) ∈ (compileRoutes C n.prx name appCfg).routes ∧
          (compileRoutes C n.prx name appCfg).rewriter = some rw ∧
          applyBehaviours name appCfg config n.behaviours
            (C.Decorate rw handler) (C.Decorate rw handler) = .ok (s, u) ∧
          b.route = route ∧
          (((b.method = .GET ∨ b.method = .HEAD) ∧ b.handler = s) ∨
            ((b.method = .POST ∨ b.method = .PUT ∨ b.method = .PATCH ∨ b.method = .DELETE) ∧
              b.handler = u) ∨
            (b.method = .OPTIONS ∧ b.handler =
              if n.cfg.Proxy.OptionsConfiguration.Enabled = true
              then C.buildOptionsHandler s else s)))) ∧
    (∀ (H : Type) name appCfg config (ws : List ((H → H) × (H → H))) (h : H),
      applyBehaviours name appCfg config (ws.map (fun w => wrapBehaviour w.1 w.2)) h h =
        .ok (ws.foldl (fun x w => w.1 x) h, ws.foldl (fun x w => w.2 x) h)) ∧
    (∀ (H : Type) name appCfg config (ws₁ ws₂ : List ((H → H) × (H → H))) (f : H → H) (h : H),
      ∃ s u u',
        applyBehaviours name appCfg config
          ((ws₁ ++ (id, f) :: ws₂).map (fun w => wrapBehaviour w.1 w.2)) h h = .ok (s, u) ∧
        applyBehaviours name appCfg config
          ((ws₁ ++ ws₂).map (fun w => wrapBehaviour w.1 w.2)) h h = .ok (s, u')) ∧
    (∀ (H : Type) name appCfg config (ws₁ ws₂ : List ((H → H) × (H → H))) (f : H → H) (h : H),
      ∃ s s' u,
        applyBehaviours name appCfg config
          ((ws₁ ++ (f, id) :: ws₂).map (fun w => wrapBehaviour w.1 w.2)) h h = .ok (s, u) ∧
        applyBehaviours name appCfg config
          ((ws₁ ++ ws₂).map (fun w => wrapBehaviour w.1 w.2)) h h = .ok (s', u)) := by
  refine ⟨?_, ?_, ?_, ?_⟩
  · intro H C n name appCfg config hnil
    refine ⟨?_, ?_⟩
    · intro route handler hmem
      obtain ⟨rw, s, u, hrw, hsu, hb⟩ :=
        RegisterApplication_nil_bound C n name appCfg config hnil _ hmem
      exact ⟨rw, s, u, hrw, hsu, hb _ (by simp [bindRoute]), hb _ (by simp [bindRoute]),
        hb _ (by simp [bindRoute]), hb _ (by simp [bindRoute]), hb _ (by simp [bindRoute]),
        hb _ (by simp [bindRoute]), hb _ (by simp [bindRoute])⟩
    · intro b hb
      cases hrw : (compileRoutes C n.prx name appCfg).rewriter with
      | none =>
        left
        have hr := compileRoutes_rewriter_none C n.prx name appCfg hrw
        simp only [RegisterApplication, hr, registerRoutes] at hb
        exact hb
      | some rw =>
        rw [RegisterApplication_mux_exact C n name appCfg config rw hrw hnil] at hb
        rcases List.mem_append.1 hb with hb | hb
        · exact Or.inl hb
        · right
          obtain ⟨p, hp, hbp⟩ := List.mem_flatMap.1 hb
          obtain ⟨route, handler⟩ := p
          simp only [routeBindings] at hbp
          cases hsu : applyBehaviours name appCfg config n.behaviours
              (C.Decorate rw handler) (C.Decorate rw handler) with
          | error e => rw [hsu] at hbp; simp at hbp
          | ok q =>
            obtain ⟨s, u⟩ := q
            rw [hsu] at hbp
            refine ⟨route, handler, rw, s, u, hp, rfl, hsu, ?_⟩
            simp only [bindRoute, List.mem_cons, List.mem_singleton, List.not_mem_nil,
              or_false] at hbp
            rcases hbp with rfl | rfl | rfl | rfl | rfl | rfl | rfl <;> simp
  · intro H name appCfg config ws h
    exact applyBehaviours_wrap name appCfg config ws h h
  · intro H name appCfg config ws₁ ws₂ f h
    refine ⟨_, _, (ws₁ ++ ws₂).foldl (fun x w => w.2 x) h,
      applyBehaviours_wrap name appCfg config _ h h, ?_⟩
    rw [applyBehaviours_wrap]
    simp [List.foldl_append]
  · intro H name appCfg config ws₁ ws₂ f h
    refine ⟨_, (ws₁ ++ ws₂).foldl (fun x w => w.1 x) h, _,
      applyBehaviours_wrap name appCfg config _ h h, ?_⟩
    rw [applyBehaviours_wrap]
    simp [List.foldl_append]

/-- Witness of C4: with a safe-only and an unsafe-only behaviour and the
OPTIONS flag on, GET on `/api` carries the safe wrapper alone, POST the
unsafe wrapper alone, and OPTIONS the handler built from the safe one. -/
theorem methods_bound_to_safe_and_unsafe_handlers_witness :
    (⟨.GET, "/api", .wrapped "cache" apiHandler⟩ : Binding SymHandler) ∈
      (RegisterApplication symCollaborators
        (dispatcherWith true [safeOnlyBehaviour, unsafeOnlyBehaviour]) "api" apiApp
        (emptyConfiguration true)).1.mux ∧
    (⟨.POST, "/api", .wrapped "audit" apiHandler⟩ : Binding SymHandler) ∈
      (RegisterApplication symCollaborators
        (dispatcherWith true [safeOnlyBehaviour, unsafeOnlyBehaviour]) "api" apiApp
        (emptyConfiguration true)).1.mux ∧
    (⟨.OPTIONS, "/api", .options (.wrapped "cache" apiHandler)⟩ : Binding SymHandler) ∈
      (RegisterApplication symCollaborators
        (dispatcherWith true [safeOnlyBehaviour, unsafeOnlyBehaviour]) "api" apiApp
        (emptyConfiguration true)).1.mux ∧
    (⟨.OPTIONS, "/api", .wrapped "cache" apiHandler⟩ : Binding SymHandler) ∈
      (RegisterApplication symCollaborators
        (dispatcherWith false [safeOnlyBehaviour, unsafeOnlyBehaviour]) "api" apiApp
        (emptyConfiguration false)).1.mux ∧
    ∃ rw s u,
      (compileRoutes symCollaborators (⟨0⟩ : ProxyHandler) "api" apiApp).rewriter = some rw ∧
      applyBehaviours "api" apiApp (emptyConfiguration true)
          (dispatcherWith true [safeOnlyBehaviour, unsafeOnlyBehaviour]).behaviours
          (symCollaborators.Decorate rw (.path ⟨"http://x", "api", apiApp, ⟨0⟩⟩))
          (symCollaborators.Decorate rw (.path ⟨"http://x", "api", apiApp, ⟨0⟩⟩)) =
        .ok (s, u) ∧
      (⟨.GET, "/api/*path", s⟩ : Binding SymHandler) ∈
        (RegisterApplication symCollaborators
          (dispatcherWith true [safeOnlyBehaviour, unsafeOnlyBehaviour]) "api" apiApp
          (emptyConfiguration true)).1.mux :=
  ⟨by decide, by decide, by decide, by decide,
    match (methods_bound_to_safe_and_unsafe_handlers.1 SymHandler symCollaborators
      (dispatcherWith true [safeOnlyBehaviour, unsafeOnlyBehaviour]) "api" apiApp
      (emptyConfiguration true) (by decide)).1 "/api/*path"
      (.path ⟨"http://x", "api", apiApp, ⟨0⟩⟩) (by decide) with
    | ⟨rw, s, u, hrw, hsu, hget, _⟩ => ⟨rw, s, u, hrw, hsu, hget⟩⟩

/-- C5, counterexample. A path application whose backend has neither URL nor
service name is registered without error: `RegisterApplication` returns nil
and binds GET on `/api` to a handler whose base URL is the empty string. -/
theorem unresolved_backend_counterexample :
    unresolvedApp.Backend.Url = "" ∧ unresolvedApp.Backend.Service = "" ∧
    (RegisterApplication symCollaborators (dispatcherWith false []) "api" unresolvedApp
      (emptyConfiguration false)).2 = .nil ∧
    (⟨.GET, "/api",
        .decorated ⟨"", [("/(?P<path>.*)", "/api/:path")]⟩
          (.path ⟨"", "api", unresolvedApp, ⟨0⟩⟩)⟩ : Binding SymHandler) ∈
      (RegisterApplication symCollaborators (dispatcherWith false []) "api" unresolvedApp
        (emptyConfiguration false)).1.mux := by
  decide

/-- C5, amended. For an application whose backend has neither URL nor service
name the base URL is the empty string and `RegisterApplication` does not
check it. The routes are compiled on it: the rewriter carries the empty base
URL, the two routes of a path application are bound to a closure whose
`backendUrl` is empty, and the closure of each entry of a pattern
application (distinct keys) has the empty base URL in front of its target
template. An error returned by the call is an error returned by the `Apply`
of a registered behaviour. Whenever the call returns nil, every compiled
route has GET and POST registered on the final handlers built from its
closure through the rewriter with the empty base URL; and the call returns
nil when no behaviour fails and the router takes the registrations. -/
theorem unresolved_backend_is_not_checked (H : Type) (C : Collaborators H)
    (n : noIntegrationPathDispatcher H) (name : String) (appCfg : Application)
    (config : Configuration) (hUrl : appCfg.Backend.Url = "")
    (hService : appCfg.Backend.Service = "") :
    resolveBackendUrl appCfg.Backend = "" ∧
    (∀ rw, (compileRoutes C n.prx name appCfg).rewriter = some rw → rw.backendUrl = "") ∧
    (appCfg.Routing.Type_ = "path" →
      (compileRoutes C n.prx name appCfg).routes =
        [ (TrimRight appCfg.Routing.Path "/",
            C.pathHandle { backendUrl := "", appName := name, appCfg := appCfg,
                           proxy := n.prx }),
          (TrimRight appCfg.Routing.Path "/" ++ "/*path",
            C.pathHandle { backendUrl := "", appName := name, appCfg := appCfg,
                           proxy := n.prx }) ]) ∧
    (appCfg.Routing.Type_ = "pattern" → (appCfg.Routing.Patterns.map Prod.fst).Nodup →
      (compileRoutes C n.prx name appCfg).routes =
        appCfg.Routing.Patterns.map (fun e =>
          (e.1, C.patternHandle
            { targetUrl := "" ++ e.2
              parameters := FindAllStringSubmatch e.1
              appName := name, appCfg := appCfg, proxy := n.prx }))) ∧
    (∀ e, (RegisterApplication C n name appCfg config).2 = .error e →
      ∃ b ∈ n.behaviours, ∃ s u, b s u name appCfg config = .error e) ∧
    ((RegisterApplication C n name appCfg config).2 = .nil →
      ∀ route handler, (route, handler) ∈ (compileRoutes C n.prx name appCfg).routes →
      ∃ rw s u, (compileRoutes C n.prx name appCfg).rewriter = some rw ∧
        rw.backendUrl = "" ∧
        applyBehaviours name appCfg config n.behaviours
          (C.Decorate rw handler) (C.Decorate rw handler) = .ok (s, u) ∧
        ⟨.GET, route, s⟩ ∈ (RegisterApplication C n name appCfg config).1.mux ∧
        ⟨.POST, route, u⟩ ∈ (RegisterApplication C n name appCfg config).1.mux) ∧
    ((∀ b ∈ n.behaviours, Behaviour.Succeeds b) →
      (registerAll C (registrationsOf C n name appCfg config) n.mux).2 = true →
      (RegisterApplication C n name appCfg config).2 = .nil) := by
  have hres : resolveBackendUrl appCfg.Backend = "" := by
    simp [resolveBackendUrl, hUrl, hService]
  have hrwUrl : ∀ rw, (compileRoutes C n.prx name appCfg).rewriter = some rw →
      rw.backendUrl = "" := by
    intro rw h
    by_cases h₁ : appCfg.Routing.Type_ = "path"
    · rw [compileRoutes_path C n.prx name appCfg h₁] at h
      simp only [Option.some.injEq] at h
      rw [← h, hres]
    · by_cases h₂ : appCfg.Routing.Type_ = "pattern"
      · rw [compileRoutes_pattern C n.prx name appCfg h₂] at h
        simp only [Option.some.injEq] at h
        rw [← h, hres]
      · rw [compileRoutes_other C n.prx name appCfg h₁ h₂] at h
        simp at h
  refine ⟨hres, hrwUrl, ?_, ?_, ?_, ?_, ?_⟩
  · intro hType
    have hne : TrimRight appCfg.Routing.Path "/" ≠
        TrimRight appCfg.Routing.Path "/" ++ "/*path" :=
      String_ne_append_of_ne_empty _ _ (by decide)
    rw [compileRoutes_path C n.prx name appCfg hType]
    simp only [mapSet, pathClosureOf, if_neg hne, hres]
  · intro hType hKeys
    rw [compileRoutes_pattern C n.prx name appCfg hType]
    simp only
    rw [patternFold_routes C n.prx name appCfg _ hKeys]
    simp only [patternClosureOf, hres]
  · intro e h
    exact RegisterApplication_error_origin C n name appCfg config e h
  · intro hnil route handler hmem
    obtain ⟨rw, s, u, hrw, hsu, hb⟩ :=
      RegisterApplication_nil_bound C n name appCfg config hnil _ hmem
    exact ⟨rw, s, u, hrw, hrwUrl rw hrw, hsu, hb _ (by simp [bindRoute]),
      hb _ (by simp [bindRoute])⟩
  · intro h hacc
    exact RegisterApplication_succeeds C n name appCfg config h hacc

/-- Witness of C5 amended: the application `unresolvedApp`, mounted at
`/api`, on a dispatcher without behaviours: its two routes are compiled on a
closure with the empty base URL, the call returns nil and GET on `/api` is
registered. -/
theorem unresolved_backend_is_not_checked_witness :
    unresolvedApp.Backend.Url = "" ∧ unresolvedApp.Backend.Service = "" ∧
    (compileRoutes symCollaborators ⟨0⟩ "api" unresolvedApp).routes =
      [ ("/api", .path ⟨"", "api", unresolvedApp, ⟨0⟩⟩),
        ("/api/*path", .path ⟨"", "api", unresolvedApp, ⟨0⟩⟩) ] ∧
    (RegisterApplication symCollaborators (dispatcherWith false []) "api" unresolvedApp
      (emptyConfiguration false)).2 = .nil ∧
    ∃ rw s u,
      (compileRoutes symCollaborators (⟨0⟩ : ProxyHandler) "api" unresolvedApp).rewriter =
        some rw ∧
      rw.backendUrl = "" ∧
      applyBehaviours "api" unresolvedApp (emptyConfiguration false)
          (dispatcherWith false []).behaviours
          (symCollaborators.Decorate rw (.path ⟨"", "api", unresolvedApp, ⟨0⟩⟩))
          (symCollaborators.Decorate rw (.path ⟨"", "api", unresolvedApp, ⟨0⟩⟩)) =
        .ok (s, u) ∧
      (⟨.GET, "/api", s⟩ : Binding SymHandler) ∈
        (RegisterApplication symCollaborators (dispatcherWith false []) "api" unresolvedApp
          (emptyConfiguration false)).1.mux ∧
      (⟨.POST, "/api", u⟩ : Binding SymHandler) ∈
        (RegisterApplication symCollaborators (dispatcherWith false []) "api" unresolvedApp
          (emptyConfiguration false)).1.mux :=
  have T := unresolved_backend_is_not_checked SymHandler symCollaborators
    (dispatcherWith false []) "api" unresolvedApp (emptyConfiguration false) rfl rfl
  have hnil := T.2.2.2.2.2.2 (fun b hb => absurd hb (List.not_mem_nil b)) (by decide)
  ⟨rfl, rfl, T.2.2.1 rfl, hnil,
    T.2.2.2.2.2.1 hnil "/api" (.path ⟨"", "api", unresolvedApp, ⟨0⟩⟩) (by decide)⟩

/-- C6. For every dispatching mode other than `path`,
`BuildNoIntegrationDispatcher` returns no handler and the error
`error while creating proxy builder: unsupported dispatching mode: 'MODE'`,
which contains the mode; no dispatcher was built when it returns, so no
behaviour was added and no application registered. -/
theorem unsupported_dispatching_mode_fails_fast (H S : Type) (C : Collaborators H)
    (X : Externals H S) (startup : Startup) (cfg : Configuration) (handler : ProxyHandler)
    (httpLoggers : List (S → Except String S)) (hmode : startup.DispatchingMode ≠ "path") :
    BuildNoIntegrationDispatcher C X startup cfg handler httpLoggers =
      (none, .returned none none
        (some ("error while creating proxy builder: unsupported dispatching mode: \x27"
          ++ startup.DispatchingMode ++ "\x27"))) ∧
    ∃ msg pre post,
      (BuildNoIntegrationDispatcher C X startup cfg handler httpLoggers).2 =
        .returned none none (some msg) ∧
      msg = pre ++ startup.DispatchingMode ++ post := by
  have h : BuildNoIntegrationDispatcher C X startup cfg handler httpLoggers =
      (none, .returned none none
        (some ("error while creating proxy builder: unsupported dispatching mode: \x27"
          ++ startup.DispatchingMode ++ "\x27"))) := by
    have hlit : "error while creating proxy builder: unsupported dispatching mode: \x27" =
        "error while creating proxy builder: " ++ "unsupported dispatching mode: \x27" := by
      decide
    simp only [BuildNoIntegrationDispatcher, hmode, if_false]
    rw [hlit]
    simp only [String.append_assoc]
  refine ⟨h, _, "error while creating proxy builder: unsupported dispatching mode: \x27",
    "\x27", by rw [h], ?_⟩
  apply String.ext
  simp [String.data_append]

/-- Witness of C6: the mode `bogus`. -/
theorem unsupported_dispatching_mode_fails_fast_witness :
    "bogus" ≠ "path" ∧
    (BuildNoIntegrationDispatcher symCollaborators symExternals ⟨"bogus", ""⟩
        ⟨[("api", apiApp)], ⟨⟨false⟩⟩⟩ ⟨0⟩ []).2 =
      .returned none none
        (some "error while creating proxy builder: unsupported dispatching mode: \x27bogus\x27") :=
  ⟨by decide,
    congrArg Prod.snd
      (unsupported_dispatching_mode_fails_fast SymHandler (List (Binding SymHandler))
        symCollaborators symExternals ⟨"bogus", ""⟩ ⟨[("api", apiApp)], ⟨⟨false⟩⟩⟩ ⟨0⟩ []
        (by decide)).1⟩

/-! ## Lemmas on the parameter matches -/

theorem findAllSubmatchFrom_shape (cs : List Char) (skip : Nat) :
    ∀ m ∈ findAllSubmatchFrom cs skip, ∃ nm : List Char,
      nm ≠ [] ∧ (∀ c ∈ nm, isParamChar c = true) ∧
      m = [":" ++ String.mk nm, String.mk nm] := by
  induction cs generalizing skip with
  | nil => intro m hm; simp [findAllSubmatchFrom] at hm
  | cons c rest ih =>
    intro m hm
    cases skip with
    | succ k =>
      simp only [findAllSubmatchFrom] at hm
      exact ih k m hm
    | zero =>
      simp only [findAllSubmatchFrom] at hm
      by_cases hc : c = ':' ∧ paramName rest ≠ []
      · rw [if_pos hc] at hm
        rcases List.mem_cons.1 hm with rfl | hm
        · exact ⟨paramName rest, hc.2, fun c hc' => List.mem_takeWhile_imp hc', rfl⟩
        · exact ih _ m hm
      · rw [if_neg hc] at hm
        exact ih 0 m hm

/-- C7, counterexample. The entry `/orders/:id` to `/v1/orders/:orderId`
names in its target the parameter `orderId`, which its route lacks, and
`RegisterApplication` returns nil and binds the route, the unresolved
parameter still in the target URL. -/
theorem parameter_subset_counterexample :
    ("/orders/:id", "/v1/orders/:orderId") ∈ mismatchApp.Routing.Patterns ∧
    "orderId" ∈ namedParameters "/v1/orders/:orderId" ∧
    "orderId" ∉ namedParameters "/orders/:id" ∧
    (RegisterApplication symCollaborators (dispatcherWith false []) "orders" mismatchApp
      (emptyConfiguration false)).2 = .nil ∧
    (⟨.GET, "/orders/:id",
        .decorated ⟨"http://x", [("^/v1/orders/(?P<orderId>[^/]+?)$", "/orders/:id")]⟩
          (.pattern ⟨"http://x/v1/orders/:orderId", [[":id", "id"]], "orders", mismatchApp,
            ⟨0⟩⟩)⟩ : Binding SymHandler) ∈
      (RegisterApplication symCollaborators (dispatcherWith false []) "orders" mismatchApp
        (emptyConfiguration false)).1.mux := by
  decide

/-- C7, amended. `RegisterApplication` does not compare the named parameters
of a target template with those of its route template. For a pattern
application (its pattern map having distinct keys) every entry, whatever the
parameters of its two templates, is compiled into a route bound to a closure
with target URL the base URL followed by the target template and with the
parameter matches of the route template. An error returned by the call is an
error returned by the `Apply` of a registered behaviour. Whenever the call
returns nil, GET and POST of the entry's route are registered on the final
handlers built from that closure; and the call returns nil when no behaviour
fails and the router takes the registrations. -/
theorem pattern_parameters_are_not_checked (H : Type) (C : Collaborators H)
    (n : noIntegrationPathDispatcher H) (name : String) (appCfg : Application)
    (config : Configuration) (route target : String)
    (hType : appCfg.Routing.Type_ = "pattern")
    (hKeys : (appCfg.Routing.Patterns.map Prod.fst).Nodup)
    (hEntry : (route, target) ∈ appCfg.Routing.Patterns) :
    (route, C.patternHandle
        { targetUrl := resolveBackendUrl appCfg.Backend ++ target
          parameters := FindAllStringSubmatch route
          appName := name, appCfg := appCfg, proxy := n.prx }) ∈
      (compileRoutes C n.prx name appCfg).routes ∧
    (∀ e, (RegisterApplication C n name appCfg config).2 = .error e →
      ∃ b ∈ n.behaviours, ∃ s u, b s u name appCfg config = .error e) ∧
    ((RegisterApplication C n name appCfg config).2 = .nil →
      ∃ rw s u, (compileRoutes C n.prx name appCfg).rewriter = some rw ∧
        applyBehaviours name appCfg config n.behaviours
          (C.Decorate rw (C.patternHandle
            { targetUrl := resolveBackendUrl appCfg.Backend ++ target
              parameters := FindAllStringSubmatch route
              appName := name, appCfg := appCfg, proxy := n.prx }))
          (C.Decorate rw (C.patternHandle
            { targetUrl := resolveBackendUrl appCfg.Backend ++ target
              parameters := FindAllStringSubmatch route
              appName := name, appCfg := appCfg, proxy := n.prx })) = .ok (s, u) ∧
        ⟨.GET, route, s⟩ ∈ (RegisterApplication C n name appCfg config).1.mux ∧
        ⟨.POST, route, u⟩ ∈ (RegisterApplication C n name appCfg config).1.mux) ∧
    ((∀ b ∈ n.behaviours, Behaviour.Succeeds b) →
      (registerAll C (registrationsOf C n name appCfg config) n.mux).2 = true →
      (RegisterApplication C n name appCfg config).2 = .nil) := by
  have hmem : (route, C.patternHandle (patternClosureOf n.prx name appCfg (route, target))) ∈
      (compileRoutes C n.prx name appCfg).routes := by
    rw [compileRoutes_pattern C n.prx name appCfg hType]
    simp only
    rw [patternFold_routes C n.prx name appCfg _ hKeys]
    exact List.mem_map.2 ⟨(route, target), hEntry, rfl⟩
  refine ⟨hmem, fun e h => RegisterApplication_error_origin C n name appCfg config e h,
    ?_, fun hs hacc => RegisterApplication_succeeds C n name appCfg config hs hacc⟩
  intro hnil
  obtain ⟨rw, s, u, hrw, hsu, hb⟩ :=
    RegisterApplication_nil_bound C n name appCfg config hnil _ hmem
  exact ⟨rw, s, u, hrw, hsu, hb _ (by simp [bindRoute]), hb _ (by simp [bindRoute])⟩

/-- Witness of C7 amended: the application `mismatchApp`, whose only entry
names a target parameter absent from the route: the entry is compiled with
the unresolved parameter in its target URL, the call returns nil and GET on
the route is registered. -/
theorem pattern_parameters_are_not_checked_witness :
    "orderId" ∉ namedParameters "/orders/:id" ∧
    "orderId" ∈ namedParameters "/v1/orders/:orderId" ∧
    ("/orders/:id",
        SymHandler.pattern ⟨"http://x/v1/orders/:orderId", [[":id", "id"]], "orders",
          mismatchApp, ⟨0⟩⟩) ∈
      (compileRoutes symCollaborators ⟨0⟩ "orders" mismatchApp).routes ∧
    (RegisterApplication symCollaborators (dispatcherWith false []) "orders" mismatchApp
      (emptyConfiguration false)).2 = .nil ∧
    ∃ rw s u,
      (compileRoutes symCollaborators (⟨0⟩ : ProxyHandler) "orders" mismatchApp).rewriter =
        some rw ∧
      applyBehaviours "orders" mismatchApp (emptyConfiguration false)
          (dispatcherWith false []).behaviours
          (symCollaborators.Decorate rw (.pattern ⟨"http://x/v1/orders/:orderId",
            [[":id", "id"]], "orders", mismatchApp, ⟨0⟩⟩))
          (symCollaborators.Decorate rw (.pattern ⟨"http://x/v1/orders/:orderId",
            [[":id", "id"]], "orders", mismatchApp, ⟨0⟩⟩)) = .ok (s, u) ∧
      (⟨.GET, "/orders/:id", s⟩ : Binding SymHandler) ∈
        (RegisterApplication symCollaborators (dispatcherWith false []) "orders" mismatchApp
          (emptyConfiguration false)).1.mux ∧
      (⟨.POST, "/orders/:id", u⟩ : Binding SymHandler) ∈
        (RegisterApplication symCollaborators (dispatcherWith false []) "orders" mismatchApp
          (emptyConfiguration false)).1.mux :=
  have T := pattern_parameters_are_not_checked SymHandler symCollaborators
    (dispatcherWith false []) "orders" mismatchApp (emptyConfiguration false)
    "/orders/:id" "/v1/orders/:orderId" rfl (by decide) (by decide)
  have hnil := T.2.2.2 (fun b hb => absurd hb (List.not_mem_nil b)) (by decide)
  ⟨by decide, by decide, T.1, hnil, T.2.2.1 hnil⟩

/-- C8. For an application of routing type `path` with mount path P,
`RegisterApplication` compiles exactly two routes, P' and P' followed by
`/*path`, which differ, where P' is P without its trailing `/` characters
(P is P' followed by slashes only, and P' does not end in `/`); both are
bound to the `Handle` of one closure, which carries the resolved base URL,
the application name, the application record and the proxy; the rewriter is
built from that base URL and the single entry `/(?P<path>.*)` to P' followed
by `/:path`. -/
theorem path_strategy_compiles_two_routes (H : Type) (C : Collaborators H)
    (prx : ProxyHandler) (name : String) (appCfg : Application)
    (hType : appCfg.Routing.Type_ = "path") :
    (compileRoutes C prx name appCfg).routes =
      [ (TrimRight appCfg.Routing.Path "/",
          C.pathHandle { backendUrl := resolveBackendUrl appCfg.Backend, appName := name,
                         appCfg := appCfg, proxy := prx }),
        (TrimRight appCfg.Routing.Path "/" ++ "/*path",
          C.pathHandle { backendUrl := resolveBackendUrl appCfg.Backend, appName := name,
                         appCfg := appCfg, proxy := prx }) ] ∧
    TrimRight appCfg.Routing.Path "/" ≠ TrimRight appCfg.Routing.Path "/" ++ "/*path" ∧
    (∃ k, appCfg.Routing.Path =
      TrimRight appCfg.Routing.Path "/" ++ String.mk (List.replicate k '/')) ∧
    (TrimRight appCfg.Routing.Path "/").data.getLast? ≠ some '/' ∧
    (compileRoutes C prx name appCfg).rewriter = some
      { backendUrl := resolveBackendUrl appCfg.Backend
        mapping := [("/(?P<path>.*)", TrimRight appCfg.Routing.Path "/" ++ "/:path")] } := by
  have hne : TrimRight appCfg.Routing.Path "/" ≠ TrimRight appCfg.Routing.Path "/" ++ "/*path" :=
    String_ne_append_of_ne_empty _ _ (by decide)
  refine ⟨?_, hne, TrimRight_slash_decompose _, TrimRight_slash_last _, ?_⟩
  · rw [compileRoutes_path C prx name appCfg hType]
    simp only [mapSet, pathClosureOf, if_neg hne]
  · rw [compileRoutes_path C prx name appCfg hType]

/-- Witness of C8: the application mounted at `/api/` compiles the routes
`/api` and `/api/*path`. -/
theorem path_strategy_compiles_two_routes_witness :
    (compileRoutes symCollaborators ⟨0⟩ "api" apiApp).routes =
      [ ("/api", .path ⟨"http://x", "api", apiApp, ⟨0⟩⟩),
        ("/api/*path", .path ⟨"http://x", "api", apiApp, ⟨0⟩⟩) ] ∧
    (compileRoutes symCollaborators ⟨0⟩ "api" apiApp).rewriter =
      some ⟨"http://x", [("/(?P<path>.*)", "/api/:path")]⟩ :=
  ⟨(path_strategy_compiles_two_routes SymHandler symCollaborators ⟨0⟩ "api" apiApp rfl).1,
    (path_strategy_compiles_two_routes SymHandler symCollaborators ⟨0⟩ "api" apiApp
      rfl).2.2.2.2⟩

/-- C9, counterexample. The pattern map with the two routes `/a/:id` and
`/b/:id` onto the target `/v1/:id` has distinct keys, yet the rewrite
mapping holds one entry for the key of that target: the entry from `/a/:id`
is missing when `/b/:id` is iterated last, and the entry from `/b/:id` when
`/a/:id` is. -/
theorem alias_mapping_counterexample :
    (aliasApp.Routing.Patterns.map Prod.fst).Nodup ∧
    ("/a/:id", "/v1/:id") ∈ aliasApp.Routing.Patterns ∧
    (compileRoutes symCollaborators ⟨0⟩ "alias" aliasApp).rewriter =
      some ⟨"http://x", [("^/v1/(?P<id>[^/]+?)$", "/b/:id")]⟩ ∧
    (aliasAppSwapped.Routing.Patterns.map Prod.fst).Nodup ∧
    ("/b/:id", "/v1/:id") ∈ aliasAppSwapped.Routing.Patterns ∧
    (compileRoutes symCollaborators ⟨0⟩ "alias" aliasAppSwapped).rewriter =
      some ⟨"http://x", [("^/v1/(?P<id>[^/]+?)$", "/a/:id")]⟩ := by
  decide

/-- C9, amended. For an application of routing type `pattern` whose pattern
map M has distinct keys, `RegisterApplication` compiles exactly one route per
entry of M, keyed by the route template and bound to the `Handle` of a
closure with target URL the resolved base URL followed by the target
template and with parameters the matches of `:name` in the route template,
left to right, each the pair of `:name` and `name` with `name` a non-empty
run of `[a-zA-Z0-9]`. The rewrite mapping has, under the key of each entry's
target template, the route template of an entry of M whose target template
has the same key; it is the entry's own route template when no entry with
another route template has that key. For `/orders/:id` to `/v1/orders/:id`
the key is `^/v1/orders/(?P<id>[^/]+?)$` and the parameters are the one pair
`:id`, `id`. -/
theorem pattern_strategy_compiles_one_route_per_entry (H : Type) (C : Collaborators H)
    (prx : ProxyHandler) (name : String) (appCfg : Application)
    (hType : appCfg.Routing.Type_ = "pattern")
    (hKeys : (appCfg.Routing.Patterns.map Prod.fst).Nodup) :
    (compileRoutes C prx name appCfg).routes =
      appCfg.Routing.Patterns.map (fun e =>
        (e.1, C.patternHandle
          { targetUrl := resolveBackendUrl appCfg.Backend ++ e.2
            parameters := FindAllStringSubmatch e.1
            appName := name, appCfg := appCfg, proxy := prx })) ∧
    (∃ mapping,
      (compileRoutes C prx name appCfg).rewriter =
        some { backendUrl := resolveBackendUrl appCfg.Backend, mapping := mapping } ∧
      ∀ e ∈ appCfg.Routing.Patterns,
        (∃ e' ∈ appCfg.Routing.Patterns, targetPatternOf e'.2 = targetPatternOf e.2 ∧
          mapGet mapping (targetPatternOf e.2) = some e'.1) ∧
        ((∀ e' ∈ appCfg.Routing.Patterns,
            targetPatternOf e'.2 = targetPatternOf e.2 → e'.1 = e.1) →
          mapGet mapping (targetPatternOf e.2) = some e.1)) ∧
    (∀ e ∈ appCfg.Routing.Patterns, ∀ m ∈ FindAllStringSubmatch e.1, ∃ nm : List Char,
      nm ≠ [] ∧ (∀ c ∈ nm, isParamChar c = true) ∧
      m = [":" ++ String.mk nm, String.mk nm]) ∧
    targetPatternOf "/v1/orders/:id" = "^/v1/orders/(?P<id>[^/]+?)$" ∧
    FindAllStringSubmatch "/orders/:id" = [[":id", "id"]] := by
  refine ⟨?_, ?_, ?_, by decide, by decide⟩
  · rw [compileRoutes_pattern C prx name appCfg hType]
    simp only
    rw [patternFold_routes C prx name appCfg _ hKeys]
    rfl
  · refine ⟨_, by rw [compileRoutes_pattern C prx name appCfg hType], ?_⟩
    intro e he
    obtain ⟨e', he', hk, hget⟩ :=
      patternFold_mapping C prx name appCfg appCfg.Routing.Patterns (targetPatternOf e.2)
        ⟨e, he, rfl⟩
    refine ⟨⟨e', he', hk, hget⟩, fun huniq => ?_⟩
    rw [hget, huniq e' he' hk]
  · intro e _ m hm
    exact findAllSubmatchFrom_shape _ _ m hm

/-- Witness of C9 amended: the application `orders` with the entry
`/orders/:id` to `/v1/orders/:id`. -/
theorem pattern_strategy_compiles_one_route_per_entry_witness :
    (compileRoutes symCollaborators ⟨0⟩ "orders" ordersApp).routes =
      [ ("/orders/:id",
          .pattern ⟨"http://orders.service.consul/v1/orders/:id", [[":id", "id"]], "orders",
            ordersApp, ⟨0⟩⟩) ] ∧
    ∃ mapping,
      (compileRoutes symCollaborators ⟨0⟩ "orders" ordersApp).rewriter =
        some ⟨"http://orders.service.consul", mapping⟩ ∧
      mapGet mapping "^/v1/orders/(?P<id>[^/]+?)$" = some "/orders/:id" :=
  ⟨(pattern_strategy_compiles_one_route_per_entry SymHandler symCollaborators ⟨0⟩ "orders"
      ordersApp rfl (by decide)).1,
    match (pattern_strategy_compiles_one_route_per_entry SymHandler symCollaborators ⟨0⟩
      "orders" ordersApp rfl (by decide)).2.1 with
    | ⟨mapping, hrw, hmap⟩ =>
      ⟨mapping, hrw,
        (hmap ("/orders/:id", "/v1/orders/:id") (by decide)).2
          (fun e' he' _ => by
            have : e' = ("/orders/:id", "/v1/orders/:id") := by
              simpa [ordersApp] using he'
            rw [this])⟩⟩

/-- C10. For an application whose routing type is neither `path` nor
`pattern`, `RegisterApplication` compiles no route, leaves the dispatcher as
it was and returns nil. -/
theorem unsupported_routing_type_returns_nil (H : Type) (C : Collaborators H)
    (n : noIntegrationPathDispatcher H) (name : String) (appCfg : Application)
    (config : Configuration) (hPath : appCfg.Routing.Type_ ≠ "path")
    (hPattern : appCfg.Routing.Type_ ≠ "pattern") :
    (compileRoutes C n.prx name appCfg).routes = [] ∧
    RegisterApplication C n name appCfg config = (n, .nil) := by
  refine ⟨by rw [compileRoutes_other C n.prx name appCfg hPath hPattern], ?_⟩
  simp only [RegisterApplication, compileRoutes_other C n.prx name appCfg hPath hPattern,
    registerRoutes]

/-- Witness of C10: the routing type `bogus`, on a dispatcher holding a
behaviour. -/
theorem unsupported_routing_type_returns_nil_witness :
    bogusApp.Routing.Type_ ≠ "path" ∧ bogusApp.Routing.Type_ ≠ "pattern" ∧
    (RegisterApplication symCollaborators
      (dispatcherWith false [behaviourA]) "bogus" bogusApp (emptyConfiguration false)).2 =
        .nil ∧
    (RegisterApplication symCollaborators
      (dispatcherWith false [behaviourA]) "bogus" bogusApp (emptyConfiguration false)).1.mux =
        [] :=
  ⟨by decide, by decide,
    congrArg Prod.snd
      (unsupported_routing_type_returns_nil SymHandler symCollaborators
        (dispatcherWith false [behaviourA]) "bogus" bogusApp (emptyConfiguration false)
        (by decide) (by decide)).2,
    congrArg (fun r => r.1.mux)
      (unsupported_routing_type_returns_nil SymHandler symCollaborators
        (dispatcherWith false [behaviourA]) "bogus" bogusApp (emptyConfiguration false)
        (by decide) (by decide)).2⟩

end Dispatcher
